import Mathlib

set_option maxRecDepth 100000

namespace Zeropb

/-! Shallow embedding of the zeropb descriptor compiler.

The repository's own sources contain only the build harness
(`src/rust/example_module/build.rs`), which invokes
`zeropb_build::compile_fd_bytes` on four hard-coded serialized
`FileDescriptorProto` byte arrays.  The compiler itself is not part of the
sources, so its pipeline (descriptor decoding, symbol resolution, option
interpretation, layout planning, emission, and the emitted wire codecs) is
modelled from the specification.  The four byte arrays and the structure of
`main` are embedded directly from `build.rs`. -/

/-- Wire-format record payload: a varint value, a length-delimited chunk,
or a fixed-width 32/64-bit group, as in the protobuf wire format. -/
inductive WireVal where
  | vint (n : Nat)
  | chunk (bs : List Nat)
  | f32 (bs : List Nat)
  | f64 (bs : List Nat)
deriving DecidableEq

/-- Decode a base-128 varint from a byte stream, returning the decoded
value together with the remaining bytes. -/
def decVarint : List Nat → Option (Nat × List Nat)
  | [] => none
  | b :: rest =>
    if b < 128 then some (b, rest)
    else
      match decVarint rest with
      | none => none
      | some (v, r) => some (b % 128 + 128 * v, r)

/-- Encode a natural number as a base-128 varint; the first argument is
fuel, which is always sufficient when at least the number itself. -/
def encVarintAux : Nat → Nat → List Nat
  | 0, n => [n % 128]
  | fuel + 1, n => if n < 128 then [n] else (n % 128 + 128) :: encVarintAux fuel (n / 128)

/-- Encode a natural number as a base-128 varint. -/
def encVarint (n : Nat) : List Nat := encVarintAux n n

/-- Compute the length of a list with a strict accumulator.  Defined
through the list recursor so that kernel reduction runs as a
constant-stack loop, forcing the accumulator to a numeral at every step. -/
def strictLen (l : List Nat) (acc : Nat) : Nat :=
  List.rec (motive := fun _ => Nat → Nat)
    (fun a => a)
    (fun _ _ ih a =>
      match a with
      | 0 => ih 1
      | m + 1 => ih (m + 2))
    l acc

/-- Drop the first n elements of a byte list, through the list recursor
so that kernel reduction runs as a constant-stack loop. -/
def dropN (l : List Nat) (n : Nat) : List Nat :=
  List.rec (motive := fun _ => Nat → List Nat)
    (fun _ => [])
    (fun b t ih n =>
      match n with
      | 0 => b :: t
      | m + 1 => ih m)
    l n

/-- Take the first n elements of a byte list, through the list recursor. -/
def takeN (l : List Nat) (n : Nat) : List Nat :=
  List.rec (motive := fun _ => Nat → List Nat)
    (fun _ => [])
    (fun b _ ih n =>
      match n with
      | 0 => []
      | m + 1 => b :: ih m)
    l n

/-- Check that a byte list has at least n elements, through the list
recursor. -/
def hasLen (l : List Nat) (n : Nat) : Bool :=
  List.rec (motive := fun _ => Nat → Bool)
    (fun n => match n with | 0 => true | _ + 1 => false)
    (fun _ _ ih n =>
      match n with
      | 0 => true
      | m + 1 => ih m)
    l n

/-- Parse a byte stream into a list of wire records (field number paired
with payload).  Fuel bounds the number of records; at least one byte is
consumed per record, so the length of the input is always enough fuel. -/
def parseRecsF : Nat → List Nat → Option (List (Nat × WireVal))
  | _, [] => some []
  | 0, _ :: _ => none
  | fuel + 1, bs =>
    match decVarint bs with
    | none => none
    | some (tag, rest) =>
      let num := tag / 8
      if num = 0 then none
      else
        match tag % 8 with
        | 0 =>
          match decVarint rest with
          | none => none
          | some (v, r) =>
            match parseRecsF fuel r with
            | none => none
            | some rs => some ((num, WireVal.vint v) :: rs)
        | 2 =>
          match decVarint rest with
          | none => none
          | some (len, r) =>
            if hasLen r len then
              match parseRecsF fuel (dropN r len) with
              | none => none
              | some rs => some ((num, WireVal.chunk (takeN r len)) :: rs)
            else none
        | 5 =>
          if hasLen rest 4 then
            match parseRecsF fuel (dropN rest 4) with
            | none => none
            | some rs => some ((num, WireVal.f32 (takeN rest 4)) :: rs)
          else none
        | 1 =>
          if hasLen rest 8 then
            match parseRecsF fuel (dropN rest 8) with
            | none => none
            | some rs => some ((num, WireVal.f64 (takeN rest 8)) :: rs)
          else none
        | _ => none

/-- Parse a full byte stream into wire records. -/
def parseRecords (bs : List Nat) : Option (List (Nat × WireVal)) :=
  parseRecsF (strictLen bs 0) bs

/-- Serialize one wire record: tag varint followed by the payload. -/
def encRec : Nat × WireVal → List Nat
  | (num, WireVal.vint v) => encVarint (num * 8) ++ encVarint v
  | (num, WireVal.chunk bs) => encVarint (num * 8 + 2) ++ encVarint (strictLen bs 0) ++ bs
  | (num, WireVal.f32 bs) => encVarint (num * 8 + 5) ++ bs
  | (num, WireVal.f64 bs) => encVarint (num * 8 + 1) ++ bs

/-- Serialize a list of wire records. -/
def encRecs : List (Nat × WireVal) → List Nat
  | [] => []
  | r :: rs => encRec r ++ encRecs rs

/-- Well-formedness of a wire record for the serialization round trip:
a nonzero field number and a varint or length-delimited payload. -/
def recWF : Nat × WireVal → Bool
  | (num, WireVal.vint _) => decide (1 ≤ num)
  | (num, WireVal.chunk _) => decide (1 ≤ num)
  | (_, WireVal.f32 _) => false
  | (_, WireVal.f64 _) => false

/-! Basic lemmas about the strict list helpers. -/

theorem strictLen_cons (b : Nat) (l : List Nat) (acc : Nat) :
    strictLen (b :: l) acc = strictLen l (acc + 1) := by
  cases acc <;> rfl

theorem strictLen_eq (l : List Nat) : ∀ acc : Nat, strictLen l acc = l.length + acc := by
  induction l with
  | nil => intro acc; simp [strictLen]
  | cons b t ih =>
    intro acc
    rw [strictLen_cons, ih (acc + 1)]
    simp [List.length_cons]
    omega

theorem dropN_append (bs : List Nat) (rest : List Nat) :
    dropN (bs ++ rest) bs.length = rest := by
  induction bs with
  | nil =>
    cases rest with
    | nil => rfl
    | cons b t => rfl
  | cons b t ih => simpa [dropN] using ih

theorem takeN_append (bs : List Nat) (rest : List Nat) :
    takeN (bs ++ rest) bs.length = bs := by
  induction bs with
  | nil => cases rest <;> rfl
  | cons b t ih => simpa [takeN] using ih

theorem hasLen_append (bs : List Nat) (rest : List Nat) :
    hasLen (bs ++ rest) bs.length = true := by
  induction bs with
  | nil => cases rest <;> rfl
  | cons b t ih => simpa [hasLen] using ih

/-! Varint round trip. -/

theorem decVarint_encAux (fuel : Nat) :
    ∀ n rest, n ≤ fuel → decVarint (encVarintAux fuel n ++ rest) = some (n, rest) := by
  induction fuel with
  | zero =>
    intro n rest h
    interval_cases n
    rfl
  | succ fuel ih =>
    intro n rest h
    by_cases hlt : n < 128
    · simp [encVarintAux, hlt, decVarint]
    · have h128 : 128 ≤ n := Nat.le_of_not_lt hlt
      have hdiv : n / 128 ≤ fuel := by
        have : n / 128 < n := Nat.div_lt_self (by omega) (by omega)
        omega
      have hrec := ih (n / 128) rest hdiv
      simp only [encVarintAux, hlt, if_false, List.cons_append]
      have hge : ¬ (n % 128 + 128 < 128) := by omega
      simp only [decVarint, hge, if_false, hrec]
      have : n % 128 + 128 * (n / 128) = n := by omega
      simp [this]

theorem decVarint_enc (n : Nat) (rest : List Nat) :
    decVarint (encVarint n ++ rest) = some (n, rest) :=
  decVarint_encAux n n rest (Nat.le_refl n)

theorem encVarintAux_ne_nil (fuel n : Nat) : encVarintAux fuel n ≠ [] := by
  cases fuel with
  | zero => simp [encVarintAux]
  | succ fuel =>
    by_cases h : n < 128 <;> simp [encVarintAux, h]

theorem parseRecsF_nil (fuel : Nat) : parseRecsF fuel [] = some [] := by
  cases fuel <;> rfl

/-- Serialization of well-formed wire records followed by parsing is the
identity, given enough fuel (one unit per record). -/
theorem parse_encRecs (rs : List (Nat × WireVal)) :
    ∀ fuel, rs.length ≤ fuel → (∀ r ∈ rs, recWF r = true) →
      parseRecsF fuel (encRecs rs) = some rs := by
  induction rs with
  | nil => intro fuel _ _; exact parseRecsF_nil fuel
  | cons r rs ih =>
    intro fuel hlen hwf
    obtain ⟨num, w⟩ := r
    have hwfr : recWF (num, w) = true := hwf _ (List.mem_cons_self _ _)
    have hwfrest : ∀ x ∈ rs, recWF x = true := fun x hx => hwf x (List.mem_cons_of_mem _ hx)
    cases fuel with
    | zero => simp at hlen
    | succ fuel =>
      have hfuel : rs.length ≤ fuel := by simp at hlen; omega
      have hih := ih fuel hfuel hwfrest
      cases w with
      | vint v =>
        have hnum : 1 ≤ num := by simpa [recWF] using hwfr
        show parseRecsF (fuel + 1)
          ((encVarint (num * 8) ++ encVarint v) ++ encRecs rs) = _
        rw [List.append_assoc]
        cases hstream : encVarint (num * 8) with
        | nil => exact absurd hstream (encVarintAux_ne_nil _ _)
        | cons b tl =>
          have hdec1 : decVarint (b :: (tl ++ (encVarint v ++ encRecs rs))) =
              some (num * 8, encVarint v ++ encRecs rs) := by
            have := decVarint_enc (num * 8) (encVarint v ++ encRecs rs)
            rwa [hstream, List.cons_append] at this
          have hdiv : num * 8 / 8 = num := by omega
          have hmod : num * 8 % 8 = 0 := by omega
          have hnz : ¬ (num * 8 / 8 = 0) := by omega
          have hnum0 : ¬ (num = 0) := by omega
          simp only [List.cons_append, parseRecsF, List.append_eq, hdec1, hdiv, hmod, hnz,
            hnum0, if_false, decVarint_enc, hih]
      | chunk bs =>
        have hnum : 1 ≤ num := by simpa [recWF] using hwfr
        show parseRecsF (fuel + 1)
          (((encVarint (num * 8 + 2) ++ encVarint (strictLen bs 0)) ++ bs) ++ encRecs rs) = _
        rw [List.append_assoc, List.append_assoc]
        cases hstream : encVarint (num * 8 + 2) with
        | nil => exact absurd hstream (encVarintAux_ne_nil _ _)
        | cons b tl =>
          have hdec1 : decVarint (b :: (tl ++ (encVarint (strictLen bs 0) ++ (bs ++ encRecs rs)))) =
              some (num * 8 + 2, encVarint (strictLen bs 0) ++ (bs ++ encRecs rs)) := by
            have := decVarint_enc (num * 8 + 2) (encVarint (strictLen bs 0) ++ (bs ++ encRecs rs))
            rwa [hstream, List.cons_append] at this
          have hdiv : (num * 8 + 2) / 8 = num := by omega
          have hmod : (num * 8 + 2) % 8 = 2 := by omega
          have hnz : ¬ ((num * 8 + 2) / 8 = 0) := by omega
          have hsl : strictLen bs 0 = bs.length := by simp [strictLen_eq]
          have hnum0 : ¬ (num = 0) := by omega
          rw [hsl] at hdec1
          simp only [List.cons_append, parseRecsF, List.append_eq, hdec1, hdiv, hmod, hnz,
            hnum0, if_false, decVarint_enc, hsl, hasLen_append, if_true, dropN_append,
            takeN_append, hih]
      | f32 bs => simp [recWF] at hwfr
      | f64 bs => simp [recWF] at hwfr

theorem encRec_len_pos (r : Nat × WireVal) : 1 ≤ (encRec r).length := by
  obtain ⟨num, w⟩ := r
  cases w with
  | vint v =>
    simp only [encRec, List.length_append]
    have h1 : 0 < (encVarint (num * 8)).length :=
      List.length_pos.mpr (encVarintAux_ne_nil _ _)
    omega
  | chunk bs =>
    simp only [encRec, List.length_append]
    have h1 : 0 < (encVarint (num * 8 + 2)).length :=
      List.length_pos.mpr (encVarintAux_ne_nil _ _)
    omega
  | f32 bs =>
    simp only [encRec, List.length_append]
    have h1 : 0 < (encVarint (num * 8 + 5)).length :=
      List.length_pos.mpr (encVarintAux_ne_nil _ _)
    omega
  | f64 bs =>
    simp only [encRec, List.length_append]
    have h1 : 0 < (encVarint (num * 8 + 1)).length :=
      List.length_pos.mpr (encVarintAux_ne_nil _ _)
    omega

/-- Serialization of well-formed wire records parses back to the same
records with the default (input length) fuel. -/
theorem parseRecords_encRecs (rs : List (Nat × WireVal))
    (hwf : ∀ r ∈ rs, recWF r = true) :
    parseRecords (encRecs rs) = some rs := by
  have hlen : rs.length ≤ (encRecs rs).length := by
    clear hwf
    induction rs with
    | nil => simp [encRecs]
    | cons r rs ih =>
      have h1 := encRec_len_pos r
      simp only [encRecs, List.length_append, List.length_cons]
      omega
  rw [parseRecords, strictLen_eq]
  exact parse_encRecs rs _ (by omega) hwf


/-! Descriptor data model and decoder.

Modelled from the spec: the Descriptor Decoder stage of `compile_fd_bytes`
(the compiler library is not among the repository sources; only its caller
`build.rs` is).  It turns raw `FileDescriptorProto` bytes into a structured
descriptor tree: files, messages, fields, enums, oneofs and options. -/

/-- Convert a byte list (ASCII) into a string. -/
def strOfBytes (bs : List Nat) : String := String.mk (bs.map Char.ofNat)

/-- Field descriptor as decoded from a `FieldDescriptorProto`: name, number,
cardinality label, wire type category, declared type name, oneof membership
and raw (uninterpreted) option records. -/
structure FieldDescriptor where
  name : String
  number : Nat
  label : Nat
  ftype : Nat
  typeName : String
  oneofIdx : Option Nat
  rawOpts : List (Nat × WireVal)
deriving DecidableEq

/-- Enum descriptor: fully-qualified name and ordered value list. -/
structure EnumDescriptor where
  name : String
  values : List (String × Nat)
deriving DecidableEq

/-- Message descriptor: fully-qualified name, ordered fields, oneof
declarations and raw (uninterpreted) option records. -/
structure MessageDescriptor where
  name : String
  fields : List FieldDescriptor
  oneofNames : List String
  rawOpts : List (Nat × WireVal)
deriving DecidableEq

/-- File descriptor: file path, package, imports, and the owned message and
enum definitions (nested definitions flattened, fully qualified). -/
structure FileDescriptor where
  name : String
  package : String
  dependency : List String
  messages : List MessageDescriptor
  enums : List EnumDescriptor
deriving DecidableEq

/-- Fold `FieldDescriptorProto` records into a field descriptor.  A known
field number carrying the wrong wire type is a decode failure; unknown
numbers are skipped. -/
def foldField : List (Nat × WireVal) → FieldDescriptor → Option FieldDescriptor
  | [], acc => some acc
  | (1, WireVal.chunk c) :: rs, acc => foldField rs { acc with name := strOfBytes c }
  | (1, _) :: _, _ => none
  | (3, WireVal.vint n) :: rs, acc => foldField rs { acc with number := n }
  | (3, _) :: _, _ => none
  | (4, WireVal.vint n) :: rs, acc => foldField rs { acc with label := n }
  | (4, _) :: _, _ => none
  | (5, WireVal.vint n) :: rs, acc => foldField rs { acc with ftype := n }
  | (5, _) :: _, _ => none
  | (6, WireVal.chunk c) :: rs, acc => foldField rs { acc with typeName := strOfBytes c }
  | (6, _) :: _, _ => none
  | (9, WireVal.vint n) :: rs, acc => foldField rs { acc with oneofIdx := some n }
  | (9, _) :: _, _ => none
  | (8, WireVal.chunk c) :: rs, acc =>
    match parseRecords c with
    | none => none
    | some os => foldField rs { acc with rawOpts := acc.rawOpts ++ os }
  | (8, _) :: _, _ => none
  | _ :: rs, acc => foldField rs acc

/-- Decode a serialized `FieldDescriptorProto`. -/
def decodeField (bs : List Nat) : Option FieldDescriptor :=
  match parseRecords bs with
  | none => none
  | some rs => foldField rs ⟨"", 0, 0, 0, "", none, []⟩

/-- Extract the last string payload carried by the given field number. -/
def lastStrRec (num : Nat) : List (Nat × WireVal) → String → String
  | [], acc => acc
  | (n, WireVal.chunk c) :: rs, acc =>
    if n = num then lastStrRec num rs (strOfBytes c) else lastStrRec num rs acc
  | _ :: rs, acc => lastStrRec num rs acc

/-- Fold `EnumValueDescriptorProto` records into a (name, number) pair. -/
def foldEnumVal : List (Nat × WireVal) → String × Nat → Option (String × Nat)
  | [], acc => some acc
  | (1, WireVal.chunk c) :: rs, acc => foldEnumVal rs (strOfBytes c, acc.2)
  | (1, _) :: _, _ => none
  | (2, WireVal.vint n) :: rs, acc => foldEnumVal rs (acc.1, n)
  | (2, _) :: _, _ => none
  | _ :: rs, acc => foldEnumVal rs acc

/-- Fold `EnumDescriptorProto` records into an enum descriptor. -/
def foldEnum (pre : String) : List (Nat × WireVal) → EnumDescriptor → Option EnumDescriptor
  | [], acc => some acc
  | (1, WireVal.chunk c) :: rs, acc =>
    foldEnum pre rs { acc with name := pre ++ "." ++ strOfBytes c }
  | (1, _) :: _, _ => none
  | (2, WireVal.chunk c) :: rs, acc =>
    match parseRecords c with
    | none => none
    | some vs =>
      match foldEnumVal vs ("", 0) with
      | none => none
      | some v => foldEnum pre rs { acc with values := acc.values ++ [v] }
  | (2, _) :: _, _ => none
  | _ :: rs, acc => foldEnum pre rs acc

/-- Decode a serialized `EnumDescriptorProto`, qualifying the name with the
enclosing scope prefix. -/
def decodeEnum (pre : String) (bs : List Nat) : Option EnumDescriptor :=
  match parseRecords bs with
  | none => none
  | some rs => foldEnum pre rs ⟨"", []⟩

/-- Decode a serialized `OneofDescriptorProto`, returning its name. -/
def decodeOneof (bs : List Nat) : Option String :=
  match parseRecords bs with
  | none => none
  | some rs => some (lastStrRec 1 rs "")

/-- Accumulator for decoding one `DescriptorProto`. -/
structure MsgAcc where
  fields : List FieldDescriptor
  oneofNames : List String
  rawOpts : List (Nat × WireVal)
  nestedMsgs : List MessageDescriptor
  nestedEnums : List EnumDescriptor

/-- Fold `DescriptorProto` records, decoding nested messages through the
`sub` continuation (which carries the recursion fuel). -/
def foldMsg (sub : List Nat → Option (List MessageDescriptor × List EnumDescriptor))
    (fq : String) : List (Nat × WireVal) → MsgAcc → Option MsgAcc
  | [], acc => some acc
  | (2, WireVal.chunk c) :: rs, acc =>
    match decodeField c with
    | none => none
    | some f => foldMsg sub fq rs { acc with fields := acc.fields ++ [f] }
  | (2, _) :: _, _ => none
  | (3, WireVal.chunk c) :: rs, acc =>
    match sub c with
    | none => none
    | some (ms, es) =>
      foldMsg sub fq rs
        { acc with nestedMsgs := acc.nestedMsgs ++ ms, nestedEnums := acc.nestedEnums ++ es }
  | (3, _) :: _, _ => none
  | (4, WireVal.chunk c) :: rs, acc =>
    match decodeEnum fq c with
    | none => none
    | some e => foldMsg sub fq rs { acc with nestedEnums := acc.nestedEnums ++ [e] }
  | (4, _) :: _, _ => none
  | (7, WireVal.chunk c) :: rs, acc =>
    match parseRecords c with
    | none => none
    | some os => foldMsg sub fq rs { acc with rawOpts := acc.rawOpts ++ os }
  | (7, _) :: _, _ => none
  | (8, WireVal.chunk c) :: rs, acc =>
    match decodeOneof c with
    | none => none
    | some nm => foldMsg sub fq rs { acc with oneofNames := acc.oneofNames ++ [nm] }
  | (8, _) :: _, _ => none
  | _ :: rs, acc => foldMsg sub fq rs acc

/-- Decode a serialized `DescriptorProto` under a scope prefix, returning
the flattened list of the message itself followed by its nested messages,
together with the nested enums.  Fuel bounds the nesting depth. -/
def decodeMessage : Nat → String → List Nat → Option (List MessageDescriptor × List EnumDescriptor)
  | 0, _, _ => none
  | fuel + 1, pre, bs =>
    match parseRecords bs with
    | none => none
    | some rs =>
      let fq := pre ++ "." ++ lastStrRec 1 rs ""
      match foldMsg (decodeMessage fuel fq) fq rs ⟨[], [], [], [], []⟩ with
      | none => none
      | some acc =>
        some (({ name := fq, fields := acc.fields, oneofNames := acc.oneofNames,
                 rawOpts := acc.rawOpts } : MessageDescriptor) :: acc.nestedMsgs,
              acc.nestedEnums)

/-- Accumulator for decoding one `FileDescriptorProto`. -/
structure FileAcc where
  deps : List String
  msgs : List MessageDescriptor
  enums : List EnumDescriptor

/-- Fold `FileDescriptorProto` records under the package scope prefix. -/
def foldFile (pre : String) : List (Nat × WireVal) → FileAcc → Option FileAcc
  | [], acc => some acc
  | (3, WireVal.chunk c) :: rs, acc => foldFile pre rs { acc with deps := acc.deps ++ [strOfBytes c] }
  | (3, _) :: _, _ => none
  | (4, WireVal.chunk c) :: rs, acc =>
    match decodeMessage 32 pre c with
    | none => none
    | some (ms, es) =>
      foldFile pre rs { acc with msgs := acc.msgs ++ ms, enums := acc.enums ++ es }
  | (4, _) :: _, _ => none
  | (5, WireVal.chunk c) :: rs, acc =>
    match decodeEnum pre c with
    | none => none
    | some e => foldFile pre rs { acc with enums := acc.enums ++ [e] }
  | (5, _) :: _, _ => none
  | _ :: rs, acc => foldFile pre rs acc

/-- Decode a serialized `FileDescriptorProto` into a file descriptor. -/
def decodeFile (bs : List Nat) : Option FileDescriptor :=
  match parseRecords bs with
  | none => none
  | some rs =>
    let nm := lastStrRec 1 rs ""
    let pkg := lastStrRec 2 rs ""
    let pre := if pkg = "" then "" else "." ++ pkg
    match foldFile pre rs ⟨[], [], []⟩ with
    | none => none
    | some acc =>
      some { name := nm, package := pkg, dependency := acc.deps,
             messages := acc.msgs, enums := acc.enums }

/-! The four descriptor byte arrays passed to `compile_fd_bytes` by `main`
in `build.rs`, embedded verbatim. -/

def test1Bytes : List Nat := [
  10, 16, 116, 101, 115, 116, 49, 47, 116, 101, 115, 116, 46, 112, 114, 111,
  116, 111, 18, 5, 116, 101, 115, 116, 49, 34, 49, 10, 5, 71, 114, 101,
  101, 116, 18, 18, 10, 4, 110, 97, 109, 101, 24, 1, 32, 1, 40, 9,
  82, 4, 110, 97, 109, 101, 18, 20, 10, 5, 118, 97, 108, 117, 101, 24,
  2, 32, 1, 40, 4, 82, 5, 118, 97, 108, 117, 101, 34, 41, 10, 13,
  71, 114, 101, 101, 116, 82, 101, 115, 112, 111, 110, 115, 101, 18, 24, 10,
  7, 109, 101, 115, 115, 97, 103, 101, 24, 1, 32, 1, 40, 9, 82, 7,
  109, 101, 115, 115, 97, 103, 101, 66, 41, 90, 39, 99, 111, 115, 109, 111,
  115, 115, 100, 107, 46, 105, 111, 47, 108, 111, 97, 100, 101, 114, 47, 119,
  97, 115, 109, 47, 116, 101, 115, 116, 100, 97, 116, 97, 47, 116, 101, 115,
  116, 49, 98, 6, 112, 114, 111, 116, 111, 51]

def coinBytes : List Nat := [
  10, 30, 99, 111, 115, 109, 111, 115, 47, 98, 97, 115, 101, 47, 118, 49,
  98, 101, 116, 97, 49, 47, 99, 111, 105, 110, 46, 112, 114, 111, 116, 111,
  18, 19, 99, 111, 115, 109, 111, 115, 46, 98, 97, 115, 101, 46, 118, 49,
  98, 101, 116, 97, 49, 26, 20, 103, 111, 103, 111, 112, 114, 111, 116, 111,
  47, 103, 111, 103, 111, 46, 112, 114, 111, 116, 111, 26, 25, 99, 111, 115,
  109, 111, 115, 95, 112, 114, 111, 116, 111, 47, 99, 111, 115, 109, 111, 115,
  46, 112, 114, 111, 116, 111, 26, 17, 97, 109, 105, 110, 111, 47, 97, 109,
  105, 110, 111, 46, 112, 114, 111, 116, 111, 34, 108, 10, 4, 67, 111, 105,
  110, 18, 20, 10, 5, 100, 101, 110, 111, 109, 24, 1, 32, 1, 40, 9,
  82, 5, 100, 101, 110, 111, 109, 18, 72, 10, 6, 97, 109, 111, 117, 110,
  116, 24, 2, 32, 1, 40, 9, 66, 48, 200, 222, 31, 0, 218, 222, 31,
  21, 99, 111, 115, 109, 111, 115, 115, 100, 107, 46, 105, 111, 47, 109, 97,
  116, 104, 46, 73, 110, 116, 210, 180, 45, 10, 99, 111, 115, 109, 111, 115,
  46, 73, 110, 116, 168, 231, 176, 42, 1, 82, 6, 97, 109, 111, 117, 110,
  116, 58, 4, 232, 160, 31, 1, 34, 112, 10, 7, 68, 101, 99, 67, 111,
  105, 110, 18, 20, 10, 5, 100, 101, 110, 111, 109, 24, 1, 32, 1, 40,
  9, 82, 5, 100, 101, 110, 111, 109, 18, 73, 10, 6, 97, 109, 111, 117,
  110, 116, 24, 2, 32, 1, 40, 9, 66, 49, 200, 222, 31, 0, 218, 222,
  31, 27, 99, 111, 115, 109, 111, 115, 115, 100, 107, 46, 105, 111, 47, 109,
  97, 116, 104, 46, 76, 101, 103, 97, 99, 121, 68, 101, 99, 210, 180, 45,
  10, 99, 111, 115, 109, 111, 115, 46, 68, 101, 99, 82, 6, 97, 109, 111,
  117, 110, 116, 58, 4, 232, 160, 31, 1, 66, 204, 1, 10, 23, 99, 111,
  109, 46, 99, 111, 115, 109, 111, 115, 46, 98, 97, 115, 101, 46, 118, 49,
  98, 101, 116, 97, 49, 66, 9, 67, 111, 105, 110, 80, 114, 111, 116, 111,
  80, 1, 90, 48, 99, 111, 115, 109, 111, 115, 115, 100, 107, 46, 105, 111,
  47, 97, 112, 105, 47, 99, 111, 115, 109, 111, 115, 47, 98, 97, 115, 101,
  47, 118, 49, 98, 101, 116, 97, 49, 59, 98, 97, 115, 101, 118, 49, 98,
  101, 116, 97, 49, 162, 2, 3, 67, 66, 88, 170, 2, 19, 67, 111, 115,
  109, 111, 115, 46, 66, 97, 115, 101, 46, 86, 49, 98, 101, 116, 97, 49,
  202, 2, 19, 67, 111, 115, 109, 111, 115, 92, 66, 97, 115, 101, 92, 86,
  49, 98, 101, 116, 97, 49, 226, 2, 31, 67, 111, 115, 109, 111, 115, 92,
  66, 97, 115, 101, 92, 86, 49, 98, 101, 116, 97, 49, 92, 71, 80, 66,
  77, 101, 116, 97, 100, 97, 116, 97, 234, 2, 21, 67, 111, 115, 109, 111,
  115, 58, 58, 66, 97, 115, 101, 58, 58, 86, 49, 98, 101, 116, 97, 49,
  216, 225, 30, 0, 128, 226, 30, 0, 98, 6, 112, 114, 111, 116, 111, 51]

def bankBytes : List Nat := [
  10, 30, 99, 111, 115, 109, 111, 115, 47, 98, 97, 110, 107, 47, 118, 49,
  98, 101, 116, 97, 49, 47, 98, 97, 110, 107, 46, 112, 114, 111, 116, 111,
  18, 19, 99, 111, 115, 109, 111, 115, 46, 98, 97, 110, 107, 46, 118, 49,
  98, 101, 116, 97, 49, 26, 20, 103, 111, 103, 111, 112, 114, 111, 116, 111,
  47, 103, 111, 103, 111, 46, 112, 114, 111, 116, 111, 26, 25, 99, 111, 115,
  109, 111, 115, 95, 112, 114, 111, 116, 111, 47, 99, 111, 115, 109, 111, 115,
  46, 112, 114, 111, 116, 111, 26, 30, 99, 111, 115, 109, 111, 115, 47, 98,
  97, 115, 101, 47, 118, 49, 98, 101, 116, 97, 49, 47, 99, 111, 105, 110,
  46, 112, 114, 111, 116, 111, 26, 23, 99, 111, 115, 109, 111, 115, 47, 109,
  115, 103, 47, 118, 49, 47, 109, 115, 103, 46, 112, 114, 111, 116, 111, 26,
  17, 97, 109, 105, 110, 111, 47, 97, 109, 105, 110, 111, 46, 112, 114, 111,
  116, 111, 34, 162, 1, 10, 6, 80, 97, 114, 97, 109, 115, 18, 71, 10,
  12, 115, 101, 110, 100, 95, 101, 110, 97, 98, 108, 101, 100, 24, 1, 32,
  3, 40, 11, 50, 32, 46, 99, 111, 115, 109, 111, 115, 46, 98, 97, 110,
  107, 46, 118, 49, 98, 101, 116, 97, 49, 46, 83, 101, 110, 100, 69, 110,
  97, 98, 108, 101, 100, 66, 2, 24, 1, 82, 11, 115, 101, 110, 100, 69,
  110, 97, 98, 108, 101, 100, 18, 48, 10, 20, 100, 101, 102, 97, 117, 108,
  116, 95, 115, 101, 110, 100, 95, 101, 110, 97, 98, 108, 101, 100, 24, 2,
  32, 1, 40, 8, 82, 18, 100, 101, 102, 97, 117, 108, 116, 83, 101, 110,
  100, 69, 110, 97, 98, 108, 101, 100, 58, 29, 138, 231, 176, 42, 24, 99,
  111, 115, 109, 111, 115, 45, 115, 100, 107, 47, 120, 47, 98, 97, 110, 107,
  47, 80, 97, 114, 97, 109, 115, 34, 67, 10, 11, 83, 101, 110, 100, 69,
  110, 97, 98, 108, 101, 100, 18, 20, 10, 5, 100, 101, 110, 111, 109, 24,
  1, 32, 1, 40, 9, 82, 5, 100, 101, 110, 111, 109, 18, 24, 10, 7,
  101, 110, 97, 98, 108, 101, 100, 24, 2, 32, 1, 40, 8, 82, 7, 101,
  110, 97, 98, 108, 101, 100, 58, 4, 232, 160, 31, 1, 34, 202, 1, 10,
  5, 73, 110, 112, 117, 116, 18, 50, 10, 7, 97, 100, 100, 114, 101, 115,
  115, 24, 1, 32, 1, 40, 9, 66, 24, 210, 180, 45, 20, 99, 111, 115,
  109, 111, 115, 46, 65, 100, 100, 114, 101, 115, 115, 83, 116, 114, 105, 110,
  103, 82, 7, 97, 100, 100, 114, 101, 115, 115, 18, 119, 10, 5, 99, 111,
  105, 110, 115, 24, 2, 32, 3, 40, 11, 50, 25, 46, 99, 111, 115, 109,
  111, 115, 46, 98, 97, 115, 101, 46, 118, 49, 98, 101, 116, 97, 49, 46,
  67, 111, 105, 110, 66, 70, 200, 222, 31, 0, 170, 223, 31, 40, 103, 105,
  116, 104, 117, 98, 46, 99, 111, 109, 47, 99, 111, 115, 109, 111, 115, 47,
  99, 111, 115, 109, 111, 115, 45, 115, 100, 107, 47, 116, 121, 112, 101, 115,
  46, 67, 111, 105, 110, 115, 154, 231, 176, 42, 12, 108, 101, 103, 97, 99,
  121, 95, 99, 111, 105, 110, 115, 168, 231, 176, 42, 1, 82, 5, 99, 111,
  105, 110, 115, 58, 20, 136, 160, 31, 0, 232, 160, 31, 0, 130, 231, 176,
  42, 7, 97, 100, 100, 114, 101, 115, 115, 34, 191, 1, 10, 6, 79, 117,
  116, 112, 117, 116, 18, 50, 10, 7, 97, 100, 100, 114, 101, 115, 115, 24,
  1, 32, 1, 40, 9, 66, 24, 210, 180, 45, 20, 99, 111, 115, 109, 111,
  115, 46, 65, 100, 100, 114, 101, 115, 115, 83, 116, 114, 105, 110, 103, 82,
  7, 97, 100, 100, 114, 101, 115, 115, 18, 119, 10, 5, 99, 111, 105, 110,
  115, 24, 2, 32, 3, 40, 11, 50, 25, 46, 99, 111, 115, 109, 111, 115,
  46, 98, 97, 115, 101, 46, 118, 49, 98, 101, 116, 97, 49, 46, 67, 111,
  105, 110, 66, 70, 200, 222, 31, 0, 170, 223, 31, 40, 103, 105, 116, 104,
  117, 98, 46, 99, 111, 109, 47, 99, 111, 115, 109, 111, 115, 47, 99, 111,
  115, 109, 111, 115, 45, 115, 100, 107, 47, 116, 121, 112, 101, 115, 46, 67,
  111, 105, 110, 115, 154, 231, 176, 42, 12, 108, 101, 103, 97, 99, 121, 95,
  99, 111, 105, 110, 115, 168, 231, 176, 42, 1, 82, 5, 99, 111, 105, 110,
  115, 58, 8, 136, 160, 31, 0, 232, 160, 31, 0, 34, 172, 1, 10, 6,
  83, 117, 112, 112, 108, 121, 18, 119, 10, 5, 116, 111, 116, 97, 108, 24,
  1, 32, 3, 40, 11, 50, 25, 46, 99, 111, 115, 109, 111, 115, 46, 98,
  97, 115, 101, 46, 118, 49, 98, 101, 116, 97, 49, 46, 67, 111, 105, 110,
  66, 70, 200, 222, 31, 0, 170, 223, 31, 40, 103, 105, 116, 104, 117, 98,
  46, 99, 111, 109, 47, 99, 111, 115, 109, 111, 115, 47, 99, 111, 115, 109,
  111, 115, 45, 115, 100, 107, 47, 116, 121, 112, 101, 115, 46, 67, 111, 105,
  110, 115, 154, 231, 176, 42, 12, 108, 101, 103, 97, 99, 121, 95, 99, 111,
  105, 110, 115, 168, 231, 176, 42, 1, 82, 5, 116, 111, 116, 97, 108, 58,
  41, 24, 1, 136, 160, 31, 0, 232, 160, 31, 1, 202, 180, 45, 27, 99,
  111, 115, 109, 111, 115, 46, 98, 97, 110, 107, 46, 118, 49, 98, 101, 116,
  97, 49, 46, 83, 117, 112, 112, 108, 121, 73, 34, 87, 10, 9, 68, 101,
  110, 111, 109, 85, 110, 105, 116, 18, 20, 10, 5, 100, 101, 110, 111, 109,
  24, 1, 32, 1, 40, 9, 82, 5, 100, 101, 110, 111, 109, 18, 26, 10,
  8, 101, 120, 112, 111, 110, 101, 110, 116, 24, 2, 32, 1, 40, 13, 82,
  8, 101, 120, 112, 111, 110, 101, 110, 116, 18, 24, 10, 7, 97, 108, 105,
  97, 115, 101, 115, 24, 3, 32, 3, 40, 9, 82, 7, 97, 108, 105, 97,
  115, 101, 115, 34, 138, 2, 10, 8, 77, 101, 116, 97, 100, 97, 116, 97,
  18, 32, 10, 11, 100, 101, 115, 99, 114, 105, 112, 116, 105, 111, 110, 24,
  1, 32, 1, 40, 9, 82, 11, 100, 101, 115, 99, 114, 105, 112, 116, 105,
  111, 110, 18, 63, 10, 11, 100, 101, 110, 111, 109, 95, 117, 110, 105, 116,
  115, 24, 2, 32, 3, 40, 11, 50, 30, 46, 99, 111, 115, 109, 111, 115,
  46, 98, 97, 110, 107, 46, 118, 49, 98, 101, 116, 97, 49, 46, 68, 101,
  110, 111, 109, 85, 110, 105, 116, 82, 10, 100, 101, 110, 111, 109, 85, 110,
  105, 116, 115, 18, 18, 10, 4, 98, 97, 115, 101, 24, 3, 32, 1, 40,
  9, 82, 4, 98, 97, 115, 101, 18, 24, 10, 7, 100, 105, 115, 112, 108,
  97, 121, 24, 4, 32, 1, 40, 9, 82, 7, 100, 105, 115, 112, 108, 97,
  121, 18, 18, 10, 4, 110, 97, 109, 101, 24, 5, 32, 1, 40, 9, 82,
  4, 110, 97, 109, 101, 18, 22, 10, 6, 115, 121, 109, 98, 111, 108, 24,
  6, 32, 1, 40, 9, 82, 6, 115, 121, 109, 98, 111, 108, 18, 25, 10,
  3, 117, 114, 105, 24, 7, 32, 1, 40, 9, 66, 7, 226, 222, 31, 3,
  85, 82, 73, 82, 3, 117, 114, 105, 18, 38, 10, 8, 117, 114, 105, 95,
  104, 97, 115, 104, 24, 8, 32, 1, 40, 9, 66, 11, 226, 222, 31, 7,
  85, 82, 73, 72, 97, 115, 104, 82, 7, 117, 114, 105, 72, 97, 115, 104,
  66, 196, 1, 10, 23, 99, 111, 109, 46, 99, 111, 115, 109, 111, 115, 46,
  98, 97, 110, 107, 46, 118, 49, 98, 101, 116, 97, 49, 66, 9, 66, 97,
  110, 107, 80, 114, 111, 116, 111, 80, 1, 90, 48, 99, 111, 115, 109, 111,
  115, 115, 100, 107, 46, 105, 111, 47, 97, 112, 105, 47, 99, 111, 115, 109,
  111, 115, 47, 98, 97, 110, 107, 47, 118, 49, 98, 101, 116, 97, 49, 59,
  98, 97, 110, 107, 118, 49, 98, 101, 116, 97, 49, 162, 2, 3, 67, 66,
  88, 170, 2, 19, 67, 111, 115, 109, 111, 115, 46, 66, 97, 110, 107, 46,
  86, 49, 98, 101, 116, 97, 49, 202, 2, 19, 67, 111, 115, 109, 111, 115,
  92, 66, 97, 110, 107, 92, 86, 49, 98, 101, 116, 97, 49, 226, 2, 31,
  67, 111, 115, 109, 111, 115, 92, 66, 97, 110, 107, 92, 86, 49, 98, 101,
  116, 97, 49, 92, 71, 80, 66, 77, 101, 116, 97, 100, 97, 116, 97, 234,
  2, 21, 67, 111, 115, 109, 111, 115, 58, 58, 66, 97, 110, 107, 58, 58,
  86, 49, 98, 101, 116, 97, 49, 98, 6, 112, 114, 111, 116, 111, 51]

def txBytes : List Nat := [
  10, 28, 99, 111, 115, 109, 111, 115, 47, 98, 97, 110, 107, 47, 118, 49,
  98, 101, 116, 97, 49, 47, 116, 120, 46, 112, 114, 111, 116, 111, 18, 19,
  99, 111, 115, 109, 111, 115, 46, 98, 97, 110, 107, 46, 118, 49, 98, 101,
  116, 97, 49, 26, 20, 103, 111, 103, 111, 112, 114, 111, 116, 111, 47, 103,
  111, 103, 111, 46, 112, 114, 111, 116, 111, 26, 30, 99, 111, 115, 109, 111,
  115, 47, 98, 97, 115, 101, 47, 118, 49, 98, 101, 116, 97, 49, 47, 99,
  111, 105, 110, 46, 112, 114, 111, 116, 111, 26, 30, 99, 111, 115, 109, 111,
  115, 47, 98, 97, 110, 107, 47, 118, 49, 98, 101, 116, 97, 49, 47, 98,
  97, 110, 107, 46, 112, 114, 111, 116, 111, 26, 25, 99, 111, 115, 109, 111,
  115, 95, 112, 114, 111, 116, 111, 47, 99, 111, 115, 109, 111, 115, 46, 112,
  114, 111, 116, 111, 26, 23, 99, 111, 115, 109, 111, 115, 47, 109, 115, 103,
  47, 118, 49, 47, 109, 115, 103, 46, 112, 114, 111, 116, 111, 26, 17, 97,
  109, 105, 110, 111, 47, 97, 109, 105, 110, 111, 46, 112, 114, 111, 116, 111,
  34, 172, 2, 10, 7, 77, 115, 103, 83, 101, 110, 100, 18, 59, 10, 12,
  102, 114, 111, 109, 95, 97, 100, 100, 114, 101, 115, 115, 24, 1, 32, 1,
  40, 9, 66, 24, 210, 180, 45, 20, 99, 111, 115, 109, 111, 115, 46, 65,
  100, 100, 114, 101, 115, 115, 83, 116, 114, 105, 110, 103, 82, 11, 102, 114,
  111, 109, 65, 100, 100, 114, 101, 115, 115, 18, 55, 10, 10, 116, 111, 95,
  97, 100, 100, 114, 101, 115, 115, 24, 2, 32, 1, 40, 9, 66, 24, 210,
  180, 45, 20, 99, 111, 115, 109, 111, 115, 46, 65, 100, 100, 114, 101, 115,
  115, 83, 116, 114, 105, 110, 103, 82, 9, 116, 111, 65, 100, 100, 114, 101,
  115, 115, 18, 121, 10, 6, 97, 109, 111, 117, 110, 116, 24, 3, 32, 3,
  40, 11, 50, 25, 46, 99, 111, 115, 109, 111, 115, 46, 98, 97, 115, 101,
  46, 118, 49, 98, 101, 116, 97, 49, 46, 67, 111, 105, 110, 66, 70, 200,
  222, 31, 0, 170, 223, 31, 40, 103, 105, 116, 104, 117, 98, 46, 99, 111,
  109, 47, 99, 111, 115, 109, 111, 115, 47, 99, 111, 115, 109, 111, 115, 45,
  115, 100, 107, 47, 116, 121, 112, 101, 115, 46, 67, 111, 105, 110, 115, 154,
  231, 176, 42, 12, 108, 101, 103, 97, 99, 121, 95, 99, 111, 105, 110, 115,
  168, 231, 176, 42, 1, 82, 6, 97, 109, 111, 117, 110, 116, 58, 48, 136,
  160, 31, 0, 232, 160, 31, 0, 130, 231, 176, 42, 12, 102, 114, 111, 109,
  95, 97, 100, 100, 114, 101, 115, 115, 138, 231, 176, 42, 18, 99, 111, 115,
  109, 111, 115, 45, 115, 100, 107, 47, 77, 115, 103, 83, 101, 110, 100, 34,
  17, 10, 15, 77, 115, 103, 83, 101, 110, 100, 82, 101, 115, 112, 111, 110,
  115, 101, 34, 188, 1, 10, 12, 77, 115, 103, 77, 117, 108, 116, 105, 83,
  101, 110, 100, 18, 61, 10, 6, 105, 110, 112, 117, 116, 115, 24, 1, 32,
  3, 40, 11, 50, 26, 46, 99, 111, 115, 109, 111, 115, 46, 98, 97, 110,
  107, 46, 118, 49, 98, 101, 116, 97, 49, 46, 73, 110, 112, 117, 116, 66,
  9, 200, 222, 31, 0, 168, 231, 176, 42, 1, 82, 6, 105, 110, 112, 117,
  116, 115, 18, 64, 10, 7, 111, 117, 116, 112, 117, 116, 115, 24, 2, 32,
  3, 40, 11, 50, 27, 46, 99, 111, 115, 109, 111, 115, 46, 98, 97, 110,
  107, 46, 118, 49, 98, 101, 116, 97, 49, 46, 79, 117, 116, 112, 117, 116,
  66, 9, 200, 222, 31, 0, 168, 231, 176, 42, 1, 82, 7, 111, 117, 116,
  112, 117, 116, 115, 58, 43, 232, 160, 31, 0, 130, 231, 176, 42, 6, 105,
  110, 112, 117, 116, 115, 138, 231, 176, 42, 23, 99, 111, 115, 109, 111, 115,
  45, 115, 100, 107, 47, 77, 115, 103, 77, 117, 108, 116, 105, 83, 101, 110,
  100, 34, 22, 10, 20, 77, 115, 103, 77, 117, 108, 116, 105, 83, 101, 110,
  100, 82, 101, 115, 112, 111, 110, 115, 101, 34, 191, 1, 10, 15, 77, 115,
  103, 85, 112, 100, 97, 116, 101, 80, 97, 114, 97, 109, 115, 18, 54, 10,
  9, 97, 117, 116, 104, 111, 114, 105, 116, 121, 24, 1, 32, 1, 40, 9,
  66, 24, 210, 180, 45, 20, 99, 111, 115, 109, 111, 115, 46, 65, 100, 100,
  114, 101, 115, 115, 83, 116, 114, 105, 110, 103, 82, 9, 97, 117, 116, 104,
  111, 114, 105, 116, 121, 18, 62, 10, 6, 112, 97, 114, 97, 109, 115, 24,
  2, 32, 1, 40, 11, 50, 27, 46, 99, 111, 115, 109, 111, 115, 46, 98,
  97, 110, 107, 46, 118, 49, 98, 101, 116, 97, 49, 46, 80, 97, 114, 97,
  109, 115, 66, 9, 200, 222, 31, 0, 168, 231, 176, 42, 1, 82, 6, 112,
  97, 114, 97, 109, 115, 58, 52, 130, 231, 176, 42, 9, 97, 117, 116, 104,
  111, 114, 105, 116, 121, 138, 231, 176, 42, 33, 99, 111, 115, 109, 111, 115,
  45, 115, 100, 107, 47, 120, 47, 98, 97, 110, 107, 47, 77, 115, 103, 85,
  112, 100, 97, 116, 101, 80, 97, 114, 97, 109, 115, 34, 25, 10, 23, 77,
  115, 103, 85, 112, 100, 97, 116, 101, 80, 97, 114, 97, 109, 115, 82, 101,
  115, 112, 111, 110, 115, 101, 34, 233, 1, 10, 17, 77, 115, 103, 83, 101,
  116, 83, 101, 110, 100, 69, 110, 97, 98, 108, 101, 100, 18, 54, 10, 9,
  97, 117, 116, 104, 111, 114, 105, 116, 121, 24, 1, 32, 1, 40, 9, 66,
  24, 210, 180, 45, 20, 99, 111, 115, 109, 111, 115, 46, 65, 100, 100, 114,
  101, 115, 115, 83, 116, 114, 105, 110, 103, 82, 9, 97, 117, 116, 104, 111,
  114, 105, 116, 121, 18, 67, 10, 12, 115, 101, 110, 100, 95, 101, 110, 97,
  98, 108, 101, 100, 24, 2, 32, 3, 40, 11, 50, 32, 46, 99, 111, 115,
  109, 111, 115, 46, 98, 97, 110, 107, 46, 118, 49, 98, 101, 116, 97, 49,
  46, 83, 101, 110, 100, 69, 110, 97, 98, 108, 101, 100, 82, 11, 115, 101,
  110, 100, 69, 110, 97, 98, 108, 101, 100, 18, 38, 10, 15, 117, 115, 101,
  95, 100, 101, 102, 97, 117, 108, 116, 95, 102, 111, 114, 24, 3, 32, 3,
  40, 9, 82, 13, 117, 115, 101, 68, 101, 102, 97, 117, 108, 116, 70, 111,
  114, 58, 47, 130, 231, 176, 42, 9, 97, 117, 116, 104, 111, 114, 105, 116,
  121, 138, 231, 176, 42, 28, 99, 111, 115, 109, 111, 115, 45, 115, 100, 107,
  47, 77, 115, 103, 83, 101, 116, 83, 101, 110, 100, 69, 110, 97, 98, 108,
  101, 100, 34, 27, 10, 25, 77, 115, 103, 83, 101, 116, 83, 101, 110, 100,
  69, 110, 97, 98, 108, 101, 100, 82, 101, 115, 112, 111, 110, 115, 101, 34,
  148, 1, 10, 7, 77, 115, 103, 66, 117, 114, 110, 18, 59, 10, 12, 102,
  114, 111, 109, 95, 97, 100, 100, 114, 101, 115, 115, 24, 1, 32, 1, 40,
  9, 66, 24, 210, 180, 45, 20, 99, 111, 115, 109, 111, 115, 46, 65, 100,
  100, 114, 101, 115, 115, 83, 116, 114, 105, 110, 103, 82, 11, 102, 114, 111,
  109, 65, 100, 100, 114, 101, 115, 115, 18, 49, 10, 6, 97, 109, 111, 117,
  110, 116, 24, 2, 32, 3, 40, 11, 50, 25, 46, 99, 111, 115, 109, 111,
  115, 46, 98, 97, 115, 101, 46, 118, 49, 98, 101, 116, 97, 49, 46, 67,
  111, 105, 110, 82, 6, 97, 109, 111, 117, 110, 116, 58, 25, 136, 160, 31,
  0, 232, 160, 31, 0, 130, 231, 176, 42, 12, 102, 114, 111, 109, 95, 97,
  100, 100, 114, 101, 115, 115, 34, 17, 10, 15, 77, 115, 103, 66, 117, 114,
  110, 82, 101, 115, 112, 111, 110, 115, 101, 50, 205, 3, 10, 3, 77, 115,
  103, 18, 74, 10, 4, 83, 101, 110, 100, 18, 28, 46, 99, 111, 115, 109,
  111, 115, 46, 98, 97, 110, 107, 46, 118, 49, 98, 101, 116, 97, 49, 46,
  77, 115, 103, 83, 101, 110, 100, 26, 36, 46, 99, 111, 115, 109, 111, 115,
  46, 98, 97, 110, 107, 46, 118, 49, 98, 101, 116, 97, 49, 46, 77, 115,
  103, 83, 101, 110, 100, 82, 101, 115, 112, 111, 110, 115, 101, 18, 89, 10,
  9, 77, 117, 108, 116, 105, 83, 101, 110, 100, 18, 33, 46, 99, 111, 115,
  109, 111, 115, 46, 98, 97, 110, 107, 46, 118, 49, 98, 101, 116, 97, 49,
  46, 77, 115, 103, 77, 117, 108, 116, 105, 83, 101, 110, 100, 26, 41, 46,
  99, 111, 115, 109, 111, 115, 46, 98, 97, 110, 107, 46, 118, 49, 98, 101,
  116, 97, 49, 46, 77, 115, 103, 77, 117, 108, 116, 105, 83, 101, 110, 100,
  82, 101, 115, 112, 111, 110, 115, 101, 18, 74, 10, 4, 66, 117, 114, 110,
  18, 28, 46, 99, 111, 115, 109, 111, 115, 46, 98, 97, 110, 107, 46, 118,
  49, 98, 101, 116, 97, 49, 46, 77, 115, 103, 66, 117, 114, 110, 26, 36,
  46, 99, 111, 115, 109, 111, 115, 46, 98, 97, 110, 107, 46, 118, 49, 98,
  101, 116, 97, 49, 46, 77, 115, 103, 66, 117, 114, 110, 82, 101, 115, 112,
  111, 110, 115, 101, 18, 98, 10, 12, 85, 112, 100, 97, 116, 101, 80, 97,
  114, 97, 109, 115, 18, 36, 46, 99, 111, 115, 109, 111, 115, 46, 98, 97,
  110, 107, 46, 118, 49, 98, 101, 116, 97, 49, 46, 77, 115, 103, 85, 112,
  100, 97, 116, 101, 80, 97, 114, 97, 109, 115, 26, 44, 46, 99, 111, 115,
  109, 111, 115, 46, 98, 97, 110, 107, 46, 118, 49, 98, 101, 116, 97, 49,
  46, 77, 115, 103, 85, 112, 100, 97, 116, 101, 80, 97, 114, 97, 109, 115,
  82, 101, 115, 112, 111, 110, 115, 101, 18, 104, 10, 14, 83, 101, 116, 83,
  101, 110, 100, 69, 110, 97, 98, 108, 101, 100, 18, 38, 46, 99, 111, 115,
  109, 111, 115, 46, 98, 97, 110, 107, 46, 118, 49, 98, 101, 116, 97, 49,
  46, 77, 115, 103, 83, 101, 116, 83, 101, 110, 100, 69, 110, 97, 98, 108,
  101, 100, 26, 46, 46, 99, 111, 115, 109, 111, 115, 46, 98, 97, 110, 107,
  46, 118, 49, 98, 101, 116, 97, 49, 46, 77, 115, 103, 83, 101, 116, 83,
  101, 110, 100, 69, 110, 97, 98, 108, 101, 100, 82, 101, 115, 112, 111, 110,
  115, 101, 26, 5, 128, 231, 176, 42, 1, 66, 194, 1, 10, 23, 99, 111,
  109, 46, 99, 111, 115, 109, 111, 115, 46, 98, 97, 110, 107, 46, 118, 49,
  98, 101, 116, 97, 49, 66, 7, 84, 120, 80, 114, 111, 116, 111, 80, 1,
  90, 48, 99, 111, 115, 109, 111, 115, 115, 100, 107, 46, 105, 111, 47, 97,
  112, 105, 47, 99, 111, 115, 109, 111, 115, 47, 98, 97, 110, 107, 47, 118,
  49, 98, 101, 116, 97, 49, 59, 98, 97, 110, 107, 118, 49, 98, 101, 116,
  97, 49, 162, 2, 3, 67, 66, 88, 170, 2, 19, 67, 111, 115, 109, 111,
  115, 46, 66, 97, 110, 107, 46, 86, 49, 98, 101, 116, 97, 49, 202, 2,
  19, 67, 111, 115, 109, 111, 115, 92, 66, 97, 110, 107, 92, 86, 49, 98,
  101, 116, 97, 49, 226, 2, 31, 67, 111, 115, 109, 111, 115, 92, 66, 97,
  110, 107, 92, 86, 49, 98, 101, 116, 97, 49, 92, 71, 80, 66, 77, 101,
  116, 97, 100, 97, 116, 97, 234, 2, 21, 67, 111, 115, 109, 111, 115, 58,
  58, 66, 97, 110, 107, 58, 58, 86, 49, 98, 101, 116, 97, 49, 98, 6,
  112, 114, 111, 116, 111, 51]


/-! Symbol resolver.

Modelled from the spec: the Symbol Resolver builds a global symbol table
across all files of one descriptor set, validates imports (every import
path must resolve to exactly one file of the same set), rejects import
cycles, and rewrites every field type name into a direct descriptor link.
Resolution never looks outside the set supplied to the invocation. -/

/-- Errors of the modelled compiler pipeline. -/
inductive CompileError where
  | decodeErr
  | unresolvedImport (file : String) (path : String)
  | importCycle (files : List String)
  | unresolvedType (field : String) (attempted : String)
  | optionDecode (owner : String) (extNum : Nat)
  | unsizableLayout (msg : String)
deriving DecidableEq

/-- Count the files of a set carrying the given path name. -/
def countFiles : List FileDescriptor → String → Nat
  | [], _ => 0
  | f :: fs, nm => (if f.name = nm then 1 else 0) + countFiles fs nm

/-- First dependency of the given file that does not resolve to exactly one
file of the set. -/
def firstBadDep (ds : List FileDescriptor) (fl : String) : List String → Option (String × String)
  | [] => none
  | d :: rest => if countFiles ds d = 1 then firstBadDep ds fl rest else some (fl, d)

/-- First (file, import path) pair of the set violating the import
invariant. -/
def firstBadImport (ds : List FileDescriptor) : List FileDescriptor → Option (String × String)
  | [] => none
  | f :: fs =>
    match firstBadDep ds f.name f.dependency with
    | some bad => some bad
    | none => firstBadImport ds fs

/-- Every import path of every file resolves to exactly one file of the
set. -/
def importsOkB (ds : List FileDescriptor) : Bool := (firstBadImport ds ds).isNone

/-- Import validation, reporting the first offending import. -/
def checkImports (ds : List FileDescriptor) : Option CompileError :=
  match firstBadImport ds ds with
  | some (fl, d) => some (CompileError.unresolvedImport fl d)
  | none => none

/-- A file is ready when all its imports are already placed. -/
def depsPlaced (placed : List String) (f : FileDescriptor) : Bool :=
  f.dependency.all (fun d => placed.contains d)

/-- Kahn-style topological pass over the import graph. -/
def kahn : Nat → List FileDescriptor → List String → Bool
  | 0, rem, _ => rem.isEmpty
  | fuel + 1, rem, placed =>
    if rem.isEmpty then true
    else
      let ready := rem.filter (depsPlaced placed)
      if ready.isEmpty then false
      else kahn fuel (rem.filter (fun f => ! depsPlaced placed f)) (placed ++ ready.map (fun f => f.name))

/-- The import graph of the set is acyclic. -/
def acyclicB (ds : List FileDescriptor) : Bool := kahn ds.length ds []

/-- Cycle detection, naming the files still involved. -/
def checkCycle (ds : List FileDescriptor) : Option CompileError :=
  if acyclicB ds then none else some (CompileError.importCycle (ds.map (fun f => f.name)))

/-- All messages of the set in file order, the global message arena. -/
def allMsgs : List FileDescriptor → List MessageDescriptor
  | [] => []
  | f :: fs => f.messages ++ allMsgs fs

/-- All enums of the set in file order, the global enum arena. -/
def allEnums : List FileDescriptor → List EnumDescriptor
  | [] => []
  | f :: fs => f.enums ++ allEnums fs

/-- All messages of the set paired with their file package. -/
def pkgMsgs : List FileDescriptor → List (String × MessageDescriptor)
  | [] => []
  | f :: fs => f.messages.map (fun m => (f.package, m)) ++ pkgMsgs fs

/-- Index of the first message with the given fully-qualified name. -/
def findMsgIdx : List MessageDescriptor → String → Nat → Option Nat
  | [], _, _ => none
  | m :: ms, nm, i => if m.name = nm then some i else findMsgIdx ms nm (i + 1)

/-- Index of the first enum with the given fully-qualified name. -/
def findEnumIdx : List EnumDescriptor → String → Nat → Option Nat
  | [], _, _ => none
  | e :: es, nm, i => if e.name = nm then some i else findEnumIdx es nm (i + 1)

/-- Look up a fully-qualified (leading-dot) name in the symbol table of the
set: message arena first, then enum arena. -/
def symLookup (ds : List FileDescriptor) (nm : String) : Option (Nat ⊕ Nat) :=
  match findMsgIdx (allMsgs ds) nm 0 with
  | some i => some (Sum.inl i)
  | none =>
    match findEnumIdx (allEnums ds) nm 0 with
    | some j => some (Sum.inr j)
    | none => none

/-- Whether the string starts with a dot (a fully-qualified type name). -/
def startsWithDot (s : String) : Bool :=
  match s.data with
  | [] => false
  | c :: _ => c == Char.ofNat 46

/-- Resolve a type name: a leading-dot name is fully qualified and never
subject to relative lookup; otherwise try the enclosing package first and
the root package second. -/
def resolveName (ds : List FileDescriptor) (pkg : String) (nm : String) : Option (Nat ⊕ Nat) :=
  if startsWithDot nm then symLookup ds nm
  else
    match symLookup ds ("." ++ pkg ++ "." ++ nm) with
    | some r => some r
    | none => symLookup ds ("." ++ nm)

/-- Resolved field reference: the type name of a message or enum field is
rewritten into an index into the corresponding arena, anything else fails
with an error naming the field and the attempted name. -/
def resolveRef (ds : List FileDescriptor) (pkg : String) (f : FieldDescriptor) :
    Except CompileError (Option (Nat ⊕ Nat)) :=
  if f.ftype = 11 then
    match resolveName ds pkg f.typeName with
    | some (Sum.inl i) => Except.ok (some (Sum.inl i))
    | _ => Except.error (CompileError.unresolvedType f.name f.typeName)
  else if f.ftype = 14 then
    match resolveName ds pkg f.typeName with
    | some (Sum.inr j) => Except.ok (some (Sum.inr j))
    | _ => Except.error (CompileError.unresolvedType f.name f.typeName)
  else Except.ok none

/-- Decidable mirror of per-field resolvability. -/
def fieldResolvableB (ds : List FileDescriptor) (pkg : String) (f : FieldDescriptor) : Bool :=
  if f.ftype = 11 then
    match resolveName ds pkg f.typeName with
    | some (Sum.inl _) => true
    | _ => false
  else if f.ftype = 14 then
    match resolveName ds pkg f.typeName with
    | some (Sum.inr _) => true
    | _ => false
  else true

/-- Every field of every message of the set resolves. -/
def allResolvableB (ds : List FileDescriptor) : Bool :=
  (pkgMsgs ds).all (fun pm => pm.2.fields.all (fieldResolvableB ds pm.1))

/-- A field descriptor together with its resolved type reference. -/
structure RField0 where
  fd : FieldDescriptor
  ref : Option (Nat ⊕ Nat)
deriving DecidableEq

/-- A message descriptor with resolved fields (options still raw). -/
structure RMessage0 where
  md : MessageDescriptor
  rfields : List RField0
deriving DecidableEq

/-- Resolve all fields of one message. -/
def resolveFields (ds : List FileDescriptor) (pkg : String) :
    List FieldDescriptor → Except CompileError (List RField0)
  | [] => Except.ok []
  | f :: fs =>
    match resolveRef ds pkg f with
    | Except.error e => Except.error e
    | Except.ok r =>
      match resolveFields ds pkg fs with
      | Except.error e => Except.error e
      | Except.ok rs => Except.ok (⟨f, r⟩ :: rs)

/-- Resolve all messages of the set. -/
def resolveMsgs (ds : List FileDescriptor) :
    List (String × MessageDescriptor) → Except CompileError (List RMessage0)
  | [] => Except.ok []
  | (pkg, m) :: ms =>
    match resolveFields ds pkg m.fields with
    | Except.error e => Except.error e
    | Except.ok rf =>
      match resolveMsgs ds ms with
      | Except.error e => Except.error e
      | Except.ok rest => Except.ok (⟨m, rf⟩ :: rest)

/-- Resolver stage: import validation, cycle detection, then type-name
resolution against the symbol table of this set only. -/
def resolveSet (ds : List FileDescriptor) :
    Except CompileError (List RMessage0 × List EnumDescriptor) :=
  match checkImports ds with
  | some e => Except.error e
  | none =>
    match checkCycle ds with
    | some e => Except.error e
    | none =>
      match resolveMsgs ds (pkgMsgs ds) with
      | Except.error e => Except.error e
      | Except.ok ms => Except.ok (ms, allEnums ds)

/-! Option interpreter.

Modelled from the spec: custom options are decoded according to a fixed
table of known extension numbers (nullability, custom scalar type, cast
type for collections, extra tags, stringification hints).  Unknown
extension numbers are preserved but ignored by codegen; a recognized
extension number carrying the wrong wire type fails with an error naming
the owning descriptor and the extension number. -/

/-- Expected wire shape of a known option extension. -/
inductive ExtShape where
  | varintShape
  | chunkShape
deriving DecidableEq

/-- The fixed table of known option extension numbers. -/
def knownExt : Nat → Option ExtShape
  | 65001 => some ExtShape.varintShape
  | 65003 => some ExtShape.chunkShape
  | 65004 => some ExtShape.chunkShape
  | 65005 => some ExtShape.chunkShape
  | 65013 => some ExtShape.chunkShape
  | 93002 => some ExtShape.chunkShape
  | _ => none

/-- Whether a wire payload matches an expected option shape. -/
def shapeMatches (w : WireVal) : ExtShape → Bool
  | ExtShape.varintShape => match w with | WireVal.vint _ => true | _ => false
  | ExtShape.chunkShape => match w with | WireVal.chunk _ => true | _ => false

/-- Interpreted options of one descriptor: the decoded known extensions
plus the preserved unknown records. -/
structure ROptions where
  nullable : Option Bool
  customtype : Option String
  moretags : Option String
  jsontag : Option String
  castrepeated : Option String
  scalarHint : Option String
  unknowns : List (Nat × WireVal)
deriving DecidableEq

/-- Options with nothing set. -/
def emptyROptions : ROptions := ⟨none, none, none, none, none, none, []⟩

/-- Apply one recognized, shape-checked extension record. -/
def applyExt (o : ROptions) (n : Nat) (w : WireVal) : ROptions :=
  if n = 65001 then
    match w with
    | WireVal.vint v => { o with nullable := some (v != 0) }
    | _ => o
  else if n = 65003 then
    match w with
    | WireVal.chunk c => { o with customtype := some (strOfBytes c) }
    | _ => o
  else if n = 65004 then
    match w with
    | WireVal.chunk c => { o with moretags := some (strOfBytes c) }
    | _ => o
  else if n = 65005 then
    match w with
    | WireVal.chunk c => { o with jsontag := some (strOfBytes c) }
    | _ => o
  else if n = 65013 then
    match w with
    | WireVal.chunk c => { o with castrepeated := some (strOfBytes c) }
    | _ => o
  else if n = 93002 then
    match w with
    | WireVal.chunk c => { o with scalarHint := some (strOfBytes c) }
    | _ => o
  else o

/-- Interpret option records in order: unknown numbers are preserved in
order, recognized numbers are shape-checked and decoded. -/
def interpretGo (owner : String) : List (Nat × WireVal) → ROptions → Except CompileError ROptions
  | [], o => Except.ok o
  | (n, w) :: rs, o =>
    match knownExt n with
    | none => interpretGo owner rs { o with unknowns := o.unknowns ++ [(n, w)] }
    | some sh =>
      if shapeMatches w sh then interpretGo owner rs (applyExt o n w)
      else Except.error (CompileError.optionDecode owner n)

/-- Interpret the raw option records of one descriptor. -/
def interpretOptions (owner : String) (recs : List (Nat × WireVal)) : Except CompileError ROptions :=
  interpretGo owner recs emptyROptions

/-- Fully resolved and interpreted field. -/
structure RField where
  name : String
  number : Nat
  label : Nat
  ftype : Nat
  typeName : String
  oneofIdx : Option Nat
  ref : Option (Nat ⊕ Nat)
  opts : ROptions
deriving DecidableEq

/-- Fully resolved and interpreted message. -/
structure RMessage where
  name : String
  fields : List RField
  oneofNames : List String
  msgOpts : ROptions
deriving DecidableEq

/-- Interpret the options of one resolved field. -/
def interpretField (r : RField0) : Except CompileError RField :=
  match interpretOptions r.fd.name r.fd.rawOpts with
  | Except.error e => Except.error e
  | Except.ok o =>
    Except.ok ⟨r.fd.name, r.fd.number, r.fd.label, r.fd.ftype, r.fd.typeName, r.fd.oneofIdx, r.ref, o⟩

/-- Interpret the options of all resolved fields. -/
def interpretFields : List RField0 → Except CompileError (List RField)
  | [] => Except.ok []
  | r :: rs =>
    match interpretField r with
    | Except.error e => Except.error e
    | Except.ok f =>
      match interpretFields rs with
      | Except.error e => Except.error e
      | Except.ok fs => Except.ok (f :: fs)

/-- Interpret the options of one resolved message and its fields. -/
def interpretMsg (m : RMessage0) : Except CompileError RMessage :=
  match interpretOptions m.md.name m.md.rawOpts with
  | Except.error e => Except.error e
  | Except.ok mo =>
    match interpretFields m.rfields with
    | Except.error e => Except.error e
    | Except.ok fs => Except.ok ⟨m.md.name, fs, m.md.oneofNames, mo⟩

/-- Interpret the options of all resolved messages. -/
def interpretMsgs : List RMessage0 → Except CompileError (List RMessage)
  | [] => Except.ok []
  | m :: ms =>
    match interpretMsg m with
    | Except.error e => Except.error e
    | Except.ok rm =>
      match interpretMsgs ms with
      | Except.error e => Except.error e
      | Except.ok rest => Except.ok (rm :: rest)

/-! Layout planner.

Modelled from the spec: fields are visited in declaration order; a
fixed-width scalar becomes an inline slot sized to its natural width, a
variable-width field (string, bytes, embedded message, anything repeated)
becomes a variable-region slot holding an offset and length pair; a oneof
contributes a single shared discriminant-plus-payload slot sized to its
largest member; a field with the nullable override gets an explicit
presence flag. -/

/-- Kind of a planned slot. -/
inductive SlotKind where
  | inline (size : Nat) (align : Nat)
  | varRegion
  | oneofSlot (payload : Nat)
deriving DecidableEq

/-- One planned slot, keyed by field number (or oneof index). -/
structure Slot where
  key : Nat
  kind : SlotKind
  presence : Bool
deriving DecidableEq

/-- A planned zero-copy layout. -/
structure LayoutPlan where
  slots : List Slot
  size : Nat
deriving DecidableEq

/-- Natural inline width of a fixed-width scalar type, none for
variable-width types (string, bytes, message). -/
def scalarWidth (t : Nat) : Option Nat :=
  if t = 8 then some 1
  else if t = 13 ∨ t = 5 ∨ t = 7 ∨ t = 15 ∨ t = 2 ∨ t = 17 then some 4
  else if t = 4 ∨ t = 3 ∨ t = 6 ∨ t = 16 ∨ t = 1 ∨ t = 18 then some 8
  else if t = 14 then some 4
  else none

/-- Whether the field carries the nullable override (extension 65001 set to
true), which forces an explicit presence flag. -/
def hasNullable (f : RField) : Bool :=
  match f.opts.nullable with
  | some b => b
  | none => false

/-- Slot planned for a non-oneof field. -/
def slotFor (f : RField) : Slot :=
  if f.label = 3 then ⟨f.number, SlotKind.varRegion, false⟩
  else
    match scalarWidth f.ftype with
    | some w => ⟨f.number, SlotKind.inline w w, hasNullable f⟩
    | none => ⟨f.number, SlotKind.varRegion, hasNullable f⟩

/-- Inline footprint of one oneof member (variable-width members count as
their offset-and-length pair). -/
def memberFoot (f : RField) : Nat :=
  match scalarWidth f.ftype with
  | some w => w
  | none => 8

/-- Payload size of a oneof slot: the largest member footprint. -/
def oneofPayload (i : Nat) : List RField → Nat
  | [] => 0
  | f :: rest =>
    let r := oneofPayload i rest
    if f.oneofIdx = some i then max (memberFoot f) r else r

/-- Plan the slots of a field list in declaration order, a oneof
contributing a single shared slot at its first member. -/
def planSlots (allFields : List RField) : List RField → List Nat → List Slot
  | [], _ => []
  | f :: fs, seen =>
    match f.oneofIdx with
    | none => slotFor f :: planSlots allFields fs seen
    | some i =>
      if seen.contains i then planSlots allFields fs seen
      else ⟨i, SlotKind.oneofSlot (oneofPayload i allFields), false⟩ :: planSlots allFields fs (seen ++ [i])

/-- Inline byte footprint of a slot, including its presence flag. -/
def slotBytes (s : Slot) : Nat :=
  (match s.kind with
   | SlotKind.inline w _ => w
   | SlotKind.varRegion => 8
   | SlotKind.oneofSlot p => 4 + p) + (if s.presence then 1 else 0)

/-- Total inline size of a slot list. -/
def sumBytes : List Slot → Nat
  | [] => 0
  | s :: ss => slotBytes s + sumBytes ss

/-- Plan the layout of a field list. -/
def planFields (fs : List RField) : LayoutPlan :=
  let slots := planSlots fs fs []
  ⟨slots, sumBytes slots⟩

/-- Plan the layout of a message: a function of its field list alone. -/
def planMessage (m : RMessage) : LayoutPlan := planFields m.fields

/-- Inline-embedding size of one field were message fields embedded inline
rather than held through an offset slot; recursion through the message
arena is the unsizable case. -/
def inlineFieldSz (sub : Nat → Except CompileError Nat) (f : RField) : Except CompileError Nat :=
  if f.label = 3 then Except.ok 8
  else
    match scalarWidth f.ftype with
    | some w => Except.ok w
    | none =>
      if f.ftype = 11 then
        match f.ref with
        | some (Sum.inl j) => sub j
        | _ => Except.error (CompileError.unsizableLayout f.name)
      else Except.ok 8

/-- Sum of hypothetical inline-embedding sizes of a field list. -/
def inlineFieldsSz (sub : Nat → Except CompileError Nat) :
    List RField → Except CompileError Nat
  | [] => Except.ok 0
  | f :: fs =>
    match inlineFieldSz sub f with
    | Except.error e => Except.error e
    | Except.ok w =>
      match inlineFieldsSz sub fs with
      | Except.error e => Except.error e
      | Except.ok r => Except.ok (w + r)

/-- Hypothetical inline-embedding size of a message: embedding a message
field inline recurses into the embedded type, and a recursive type
exhausts any finite fuel, failing with an unsizable-layout error instead
of looping. -/
def inlineMsgSize : Nat → List RMessage → Nat → Except CompileError Nat
  | fuel, ar, i =>
    match ar.get? i with
    | none => Except.error (CompileError.unsizableLayout "")
    | some m =>
      match fuel with
      | 0 => Except.error (CompileError.unsizableLayout m.name)
      | fuel + 1 => inlineFieldsSz (inlineMsgSize fuel ar) m.fields

/-! Code emitter.

Modelled from the spec: per message the emitter produces one accessor per
field exposing the planned value lazily, honoring a custom-type option by
exposing the requested representation instead of the protobuf-native one,
together with the layout plan and the resolved fields (option payloads
preserved). -/

/-- One emitted accessor: field name and exposed type. -/
structure Accessor where
  fieldName : String
  exposedType : String
deriving DecidableEq

/-- Protobuf-native type string of a scalar type number. -/
def baseTypeStr (t : Nat) (tn : String) : String :=
  if t = 1 then "double"
  else if t = 2 then "float"
  else if t = 3 then "int64"
  else if t = 4 then "uint64"
  else if t = 5 then "int32"
  else if t = 6 then "fixed64"
  else if t = 7 then "fixed32"
  else if t = 8 then "bool"
  else if t = 9 then "string"
  else if t = 12 then "bytes"
  else if t = 13 then "uint32"
  else if t = 15 then "sfixed32"
  else if t = 16 then "sfixed64"
  else if t = 17 then "sint32"
  else if t = 18 then "sint64"
  else if t = 11 ∨ t = 14 then tn
  else "unsupported"

/-- Protobuf-native exposed type of a field. -/
def nativeType (f : RField) : String :=
  let b := baseTypeStr f.ftype f.typeName
  if f.label = 3 then "repeated " ++ b else b

/-- Emitted accessor of a field: the custom-type option overrides the
native representation. -/
def accessorOf (f : RField) : Accessor :=
  ⟨f.name, match f.opts.customtype with
           | some t => t
           | none => nativeType f⟩

/-- Emitted artifact for one message. -/
structure MsgOut where
  name : String
  accessors : List Accessor
  plan : LayoutPlan
  fields : List RField
deriving DecidableEq

/-- Emitted artifact for one invocation. -/
structure Output where
  messages : List MsgOut
  enums : List EnumDescriptor
deriving DecidableEq

/-- Emit one message. -/
def emitMsg (m : RMessage) : MsgOut :=
  ⟨m.name, m.fields.map accessorOf, planMessage m, m.fields⟩

/-- Emit the whole set. -/
def emitSet (ms : List RMessage) (es : List EnumDescriptor) : Output :=
  ⟨ms.map emitMsg, es⟩

/-- Compile an already-decoded descriptor set: resolve, interpret options,
plan and emit. -/
def compileSet (ds : List FileDescriptor) : Except CompileError Output :=
  match resolveSet ds with
  | Except.error e => Except.error e
  | Except.ok (ms0, es) =>
    match interpretMsgs ms0 with
    | Except.error e => Except.error e
    | Except.ok ms => Except.ok (emitSet ms es)

/-- Modelled from the spec: `compile_fd_bytes`, the compiler entry point of
the missing `zeropb_build` library.  One invocation decodes the supplied
serialized `FileDescriptorProto` into a single-file descriptor set and runs
the pipeline on that set alone; no state is shared across invocations. -/
def compile_fd_bytes (bytes : List Nat) : Except CompileError Output :=
  match decodeFile bytes with
  | none => Except.error CompileError.decodeErr
  | some f => compileSet [f]


/-! Emitted wire codecs.

Modelled from the spec: the emitted decode routine translates standard
protobuf wire bytes into the planned layout and the emitted encode routine
performs the inverse.  Message values are modelled as one field value per
planned field; proto3 defaulting applies unless the nullable override
forces explicit presence. -/

/-- Value held by one field of a message view: absent, a varint scalar, a
byte string, an embedded message (its own field values), or the repeated
forms of these. -/
inductive FVal where
  | fabsent
  | fint (n : Nat)
  | fbytes (bs : List Nat)
  | fmsg (sub : List FVal)
  | fintList (ns : List Nat)
  | fbytesList (bss : List (List Nat))
  | fmsgList (subs : List (List FVal))

/-- Scalar types carried as varints on the wire (ints, bool, enum). -/
def isVarintTy (t : Nat) : Bool :=
  (t == 3) || (t == 4) || (t == 5) || (t == 8) || (t == 13) || (t == 14)

/-- Types carried as length-delimited byte strings (string, bytes). -/
def isBytesTy (t : Nat) : Bool := (t == 9) || (t == 12)

/-- Fields of the arena message at the given index. -/
def fieldsOfIdx (ar : List RMessage) (j : Nat) : List RField :=
  match ar.get? j with
  | some m => m.fields
  | none => []

/-- Message-arena index a resolved message field points at. -/
def refIdx (f : RField) : Nat :=
  match f.ref with
  | some (Sum.inl j) => j
  | _ => 0

/-- Wire records emitted for one field value; `encSub` encodes embedded
messages.  A singular scalar equal to its zero default is omitted unless
the nullable override forces explicit presence. -/
def fieldRecs (encSub : Nat → List FVal → List Nat) (f : RField) (v : FVal) :
    List (Nat × WireVal) :=
  if f.label = 3 then
    match v with
    | FVal.fintList ns => ns.map (fun n => (f.number, WireVal.vint n))
    | FVal.fbytesList bss => bss.map (fun bs => (f.number, WireVal.chunk bs))
    | FVal.fmsgList subs => subs.map (fun sub => (f.number, WireVal.chunk (encSub (refIdx f) sub)))
    | _ => []
  else
    match v with
    | FVal.fabsent => []
    | FVal.fint n => if (n == 0) && ! hasNullable f then [] else [(f.number, WireVal.vint n)]
    | FVal.fbytes bs => if bs.isEmpty && ! hasNullable f then [] else [(f.number, WireVal.chunk bs)]
    | FVal.fmsg sub => [(f.number, WireVal.chunk (encSub (refIdx f) sub))]
    | _ => []

/-- Wire records of a field list paired with its values, in declaration
order. -/
def levelRecs (encSub : Nat → List FVal → List Nat) :
    List RField → List FVal → List (Nat × WireVal)
  | [], _ => []
  | _ :: _, [] => []
  | f :: fs, v :: vs => fieldRecs encSub f v ++ levelRecs encSub fs vs

/-- Emitted encode routine: serialize the field values of one message view
into standard protobuf wire bytes.  Fuel bounds message nesting depth. -/
def encodeFieldsF : Nat → List RMessage → List RField → List FVal → List Nat
  | 0, _, _, _ => []
  | fuel + 1, ar, fs, vs =>
    encRecs (levelRecs (fun j sub => encodeFieldsF fuel ar (fieldsOfIdx ar j) sub) fs vs)

/-- Initial (default) value of a field before any wire record is applied:
proto3 zero defaults, with absence for message fields and for fields
carrying the nullable override. -/
def defaultFV (f : RField) : FVal :=
  if f.label = 3 then
    if isVarintTy f.ftype then FVal.fintList []
    else if isBytesTy f.ftype then FVal.fbytesList []
    else FVal.fmsgList []
  else if f.ftype = 11 then FVal.fabsent
  else if hasNullable f then FVal.fabsent
  else if isVarintTy f.ftype then FVal.fint 0
  else FVal.fbytes []

/-- Default values of a field list. -/
def defaultsLevel (fs : List RField) : List FVal := fs.map defaultFV

/-- Decode one wire payload into a field element; `decSub` decodes
embedded messages. -/
def decodeElem (decSub : Nat → List Nat → Option (List FVal)) (f : RField) (w : WireVal) :
    Option FVal :=
  if isVarintTy f.ftype then
    match w with
    | WireVal.vint n => some (FVal.fint n)
    | _ => none
  else if isBytesTy f.ftype then
    match w with
    | WireVal.chunk bs => some (FVal.fbytes bs)
    | _ => none
  else if f.ftype = 11 then
    match w with
    | WireVal.chunk bs =>
      match decSub (refIdx f) bs with
      | some sub => some (FVal.fmsg sub)
      | none => none
    | _ => none
  else none

/-- Apply one wire payload to the current value of its field: repeated
fields append, singular fields overwrite. -/
def updOne (decSub : Nat → List Nat → Option (List FVal)) (f : RField) (v : FVal) (w : WireVal) :
    Option FVal :=
  if f.label = 3 then
    match decodeElem decSub f w with
    | none => none
    | some e =>
      match v, e with
      | FVal.fintList ns, FVal.fint n => some (FVal.fintList (ns ++ [n]))
      | FVal.fbytesList bss, FVal.fbytes bs => some (FVal.fbytesList (bss ++ [bs]))
      | FVal.fmsgList subs, FVal.fmsg sub => some (FVal.fmsgList (subs ++ [sub]))
      | _, _ => none
  else decodeElem decSub f w

/-- Apply one wire record to the field states, matching on field number;
a record with an unknown field number is skipped. -/
def applyOneLevel (decSub : Nat → List Nat → Option (List FVal)) :
    List RField → List FVal → Nat × WireVal → Option (List FVal)
  | [], st, _ => some st
  | _ :: _, [], _ => some []
  | f :: fs, v :: st, (num, w) =>
    if f.number = num then
      match updOne decSub f v w with
      | none => none
      | some v2 => some (v2 :: st)
    else
      match applyOneLevel decSub fs st (num, w) with
      | none => none
      | some st2 => some (v :: st2)

/-- Apply a list of wire records in order. -/
def applyRecsLevel (decSub : Nat → List Nat → Option (List FVal)) (fs : List RField) :
    List (Nat × WireVal) → List FVal → Option (List FVal)
  | [], st => some st
  | r :: rs, st =>
    match applyOneLevel decSub fs st r with
    | none => none
    | some st2 => applyRecsLevel decSub fs rs st2

/-- Emitted decode routine: parse standard wire bytes and fold the records
over the per-field defaults.  Fuel bounds message nesting depth. -/
def decodeMsgF : Nat → List RMessage → List RField → List Nat → Option (List FVal)
  | 0, _, _, _ => none
  | fuel + 1, ar, fs, bytes =>
    match parseRecords bytes with
    | none => none
    | some rs =>
      applyRecsLevel (fun j bs => decodeMsgF fuel ar (fieldsOfIdx ar j) bs) fs rs
        (defaultsLevel fs)

/-- Well-formedness of one field for the codec: nonzero field number and a
supported, consistently-referenced type. -/
def wfFieldB (f : RField) : Bool :=
  decide (1 ≤ f.number) &&
    (isVarintTy f.ftype || isBytesTy f.ftype ||
      ((f.ftype == 11) && match f.ref with
                          | some (Sum.inl _) => true
                          | _ => false))

/-- The number n does not occur among the numbers of the fields. -/
def numbersFresh (n : Nat) : List RField → Bool
  | [] => true
  | f :: fs => (f.number != n) && numbersFresh n fs

/-- Field-number uniqueness and per-field well-formedness. -/
def wfFieldsB : List RField → Bool
  | [] => true
  | f :: fs => wfFieldB f && numbersFresh f.number fs && wfFieldsB fs

/-- Conformance of one field value to its field descriptor; `csub` checks
embedded message values. -/
def confField (csub : Nat → List FVal → Bool) (f : RField) : FVal → Bool
  | FVal.fabsent => (f.label != 3) && ((f.ftype == 11) || hasNullable f)
  | FVal.fint _ => (f.label != 3) && isVarintTy f.ftype && (f.ftype != 11)
  | FVal.fbytes _ => (f.label != 3) && isBytesTy f.ftype
  | FVal.fmsg sub => (f.label != 3) && (f.ftype == 11) && csub (refIdx f) sub
  | FVal.fintList _ => (f.label == 3) && isVarintTy f.ftype
  | FVal.fbytesList _ => (f.label == 3) && isBytesTy f.ftype
  | FVal.fmsgList subs => (f.label == 3) && (f.ftype == 11) && subs.all (csub (refIdx f))

/-- Lockstep conformance of a value list to a field list. -/
def confLevel (csub : Nat → List FVal → Bool) : List RField → List FVal → Bool
  | [], [] => true
  | [], _ :: _ => false
  | _ :: _, [] => false
  | f :: fs, v :: vs => confField csub f v && confLevel csub fs vs

/-- A value list conforms to a field list within the given nesting depth:
well-formed unique field numbers and per-field shape conformance, with
embedded messages conforming at one depth less. -/
def conformsB : Nat → List RMessage → List RField → List FVal → Bool
  | 0, _, _, _ => false
  | fuel + 1, ar, fs, vs =>
    wfFieldsB fs && confLevel (fun j sub => conformsB fuel ar (fieldsOfIdx ar j) sub) fs vs


/-! Round-trip correctness of the emitted codecs. -/

theorem isVarintTy_ne11 {t : Nat} (h : isVarintTy t = true) : t ≠ 11 := by
  intro he
  subst he
  simp [isVarintTy] at h

theorem isBytesTy_cases {t : Nat} (h : isBytesTy t = true) : t = 9 ∨ t = 12 := by
  simpa [isBytesTy, beq_iff_eq] using h

theorem isBytesTy_not_varint {t : Nat} (h : isBytesTy t = true) : isVarintTy t = false := by
  rcases isBytesTy_cases h with h9 | h12
  · subst h9; rfl
  · subst h12; rfl

theorem isBytesTy_ne11 {t : Nat} (h : isBytesTy t = true) : t ≠ 11 := by
  rcases isBytesTy_cases h with h9 | h12 <;> subst_vars <;> decide

theorem fieldRecs_nums (encSub : Nat → List FVal → List Nat) (f : RField) (v : FVal) :
    ∀ r ∈ fieldRecs encSub f v, r.1 = f.number := by
  intro r hr
  unfold fieldRecs at hr
  by_cases hl : f.label = 3 <;> simp only [hl, if_true, if_false] at hr
  · cases v <;> simp at hr
    · obtain ⟨x, _, he⟩ := hr; subst he; rfl
    · obtain ⟨x, _, he⟩ := hr; subst he; rfl
    · obtain ⟨x, _, he⟩ := hr; subst he; rfl
  · cases v <;> simp at hr
    · rw [hr.2]
    · rw [hr.2]
    · rw [hr]

theorem fieldRecs_wf (encSub : Nat → List FVal → List Nat) (f : RField) (v : FVal)
    (hn : 1 ≤ f.number) : ∀ r ∈ fieldRecs encSub f v, recWF r = true := by
  intro r hr
  have := fieldRecs_nums encSub f v r hr
  unfold fieldRecs at hr
  by_cases hl : f.label = 3 <;> simp only [hl, if_true, if_false] at hr
  · cases v <;> simp at hr
    · obtain ⟨x, _, he⟩ := hr; subst he; simp [recWF]; omega
    · obtain ⟨x, _, he⟩ := hr; subst he; simp [recWF]; omega
    · obtain ⟨x, _, he⟩ := hr; subst he; simp [recWF]; omega
  · cases v <;> simp at hr
    · rw [hr.2]; simp [recWF]; omega
    · rw [hr.2]; simp [recWF]; omega
    · rw [hr]; simp [recWF]; omega

theorem levelRecs_wf (encSub : Nat → List FVal → List Nat) :
    ∀ (fs : List RField) (vs : List FVal), wfFieldsB fs = true →
      ∀ r ∈ levelRecs encSub fs vs, recWF r = true := by
  intro fs
  induction fs with
  | nil => intro vs _ r hr; simp [levelRecs] at hr
  | cons f fs ih =>
    intro vs hwf r hr
    simp only [wfFieldsB, Bool.and_eq_true] at hwf
    obtain ⟨⟨hf, _⟩, hrest⟩ := hwf
    cases vs with
    | nil => simp [levelRecs] at hr
    | cons v vs =>
      simp only [levelRecs, List.mem_append] at hr
      rcases hr with hr | hr
      · have hn : 1 ≤ f.number := by
          simp only [wfFieldB, Bool.and_eq_true, decide_eq_true_eq] at hf
          exact hf.1
        exact fieldRecs_wf encSub f v hn r hr
      · exact ih vs hrest r hr

theorem levelRecs_fresh (encSub : Nat → List FVal → List Nat) :
    ∀ (fs : List RField) (vs : List FVal) (n : Nat), numbersFresh n fs = true →
      ∀ r ∈ levelRecs encSub fs vs, r.1 ≠ n := by
  intro fs
  induction fs with
  | nil => intro vs n _ r hr; simp [levelRecs] at hr
  | cons f fs ih =>
    intro vs n hfresh r hr
    simp only [numbersFresh, Bool.and_eq_true, bne_iff_ne, ne_eq] at hfresh
    obtain ⟨hne, hrest⟩ := hfresh
    cases vs with
    | nil => simp [levelRecs] at hr
    | cons v vs =>
      simp only [levelRecs, List.mem_append] at hr
      rcases hr with hr | hr
      · rw [fieldRecs_nums encSub f v r hr]; exact hne
      · exact ih vs n hrest r hr

theorem applyRecsLevel_append (decSub : Nat → List Nat → Option (List FVal)) (fs : List RField) :
    ∀ (r1 r2 : List (Nat × WireVal)) (st : List FVal),
      applyRecsLevel decSub fs (r1 ++ r2) st =
        match applyRecsLevel decSub fs r1 st with
        | none => none
        | some st2 => applyRecsLevel decSub fs r2 st2 := by
  intro r1
  induction r1 with
  | nil => intro r2 st; rfl
  | cons r rs ih =>
    intro r2 st
    simp only [List.cons_append, applyRecsLevel]
    cases applyOneLevel decSub fs st r with
    | none => rfl
    | some st2 => exact ih r2 st2

theorem applyOneLevel_skip (decSub : Nat → List Nat → Option (List FVal))
    (f : RField) (fs : List RField) (v : FVal) (st : List FVal)
    (num : Nat) (w : WireVal) (hne : num ≠ f.number) :
    applyOneLevel decSub (f :: fs) (v :: st) (num, w) =
      (applyOneLevel decSub fs st (num, w)).map (fun st2 => v :: st2) := by
  simp only [applyOneLevel]
  rw [if_neg (fun h => hne h.symm)]
  cases applyOneLevel decSub fs st (num, w) <;> rfl

theorem applyRecsLevel_skipAll (decSub : Nat → List Nat → Option (List FVal))
    (f : RField) (fs : List RField) :
    ∀ (rs : List (Nat × WireVal)) (v : FVal) (st : List FVal),
      (∀ r ∈ rs, r.1 ≠ f.number) →
      applyRecsLevel decSub (f :: fs) rs (v :: st) =
        (applyRecsLevel decSub fs rs st).map (fun st2 => v :: st2) := by
  intro rs
  induction rs with
  | nil => intro v st _; rfl
  | cons r rs ih =>
    intro v st hfr
    obtain ⟨num, w⟩ := r
    have hne : num ≠ f.number := hfr (num, w) (List.mem_cons_self _ _)
    simp only [applyRecsLevel]
    rw [applyOneLevel_skip decSub f fs v st num w hne]
    cases applyOneLevel decSub fs st (num, w) with
    | none => rfl
    | some st2 =>
      simp only [Option.map_some]
      exact ih v st2 (fun x hx => hfr x (List.mem_cons_of_mem _ hx))


theorem defaultFV_absent {f : RField} (hl : f.label ≠ 3)
    (h : f.ftype = 11 ∨ hasNullable f = true) : defaultFV f = FVal.fabsent := by
  unfold defaultFV
  rw [if_neg hl]
  by_cases h11 : f.ftype = 11
  · simp [h11]
  · rcases h with h | h
    · exact absurd h h11
    · simp [h11, h]

theorem defaultFV_int0 {f : RField} (hl : f.label ≠ 3) (hvar : isVarintTy f.ftype = true)
    (hnn : hasNullable f = false) : defaultFV f = FVal.fint 0 := by
  unfold defaultFV
  rw [if_neg hl, if_neg (isVarintTy_ne11 hvar), hnn]
  simp [hvar]

theorem defaultFV_bytesNil {f : RField} (hl : f.label ≠ 3) (hb : isBytesTy f.ftype = true)
    (hnn : hasNullable f = false) : defaultFV f = FVal.fbytes [] := by
  unfold defaultFV
  rw [if_neg hl, if_neg (isBytesTy_ne11 hb), hnn]
  simp [isBytesTy_not_varint hb]

theorem defaultFV_intList {f : RField} (hl : f.label = 3) (hvar : isVarintTy f.ftype = true) :
    defaultFV f = FVal.fintList [] := by
  unfold defaultFV
  simp [hl, hvar]

theorem defaultFV_bytesList {f : RField} (hl : f.label = 3) (hb : isBytesTy f.ftype = true) :
    defaultFV f = FVal.fbytesList [] := by
  unfold defaultFV
  simp [hl, hb, isBytesTy_not_varint hb]

theorem defaultFV_msgList {f : RField} (hl : f.label = 3) (h11 : f.ftype = 11) :
    defaultFV f = FVal.fmsgList [] := by
  unfold defaultFV
  have hv : isVarintTy f.ftype = false := by rw [h11]; rfl
  have hb : isBytesTy f.ftype = false := by rw [h11]; rfl
  simp [hl, hv, hb]

theorem applyRep_int (decSub : Nat → List Nat → Option (List FVal))
    (f : RField) (fs : List RField) (hl : f.label = 3) (hvar : isVarintTy f.ftype = true) :
    ∀ (ns acc : List Nat) (st : List FVal),
      applyRecsLevel decSub (f :: fs) (ns.map (fun n => (f.number, WireVal.vint n)))
        (FVal.fintList acc :: st) = some (FVal.fintList (acc ++ ns) :: st) := by
  intro ns
  induction ns with
  | nil => intro acc st; simp [applyRecsLevel]
  | cons n ns ih =>
    intro acc st
    simp only [List.map_cons, applyRecsLevel, applyOneLevel, if_pos rfl, updOne, hl, if_true,
      decodeElem, hvar]
    have := ih (acc ++ [n]) st
    simpa [List.append_assoc] using this

theorem applyRep_bytes (decSub : Nat → List Nat → Option (List FVal))
    (f : RField) (fs : List RField) (hl : f.label = 3) (hb : isBytesTy f.ftype = true) :
    ∀ (bss acc : List (List Nat)) (st : List FVal),
      applyRecsLevel decSub (f :: fs) (bss.map (fun bs => (f.number, WireVal.chunk bs)))
        (FVal.fbytesList acc :: st) = some (FVal.fbytesList (acc ++ bss) :: st) := by
  intro bss
  induction bss with
  | nil => intro acc st; simp [applyRecsLevel]
  | cons bs bss ih =>
    intro acc st
    simp only [List.map_cons, applyRecsLevel, applyOneLevel, if_pos rfl, updOne, hl, if_true,
      decodeElem, isBytesTy_not_varint hb, hb, Bool.false_eq_true, if_false]
    have := ih (acc ++ [bs]) st
    simpa [List.append_assoc] using this

theorem applyRep_msg (decSub : Nat → List Nat → Option (List FVal))
    (encSub : Nat → List FVal → List Nat) (csub : Nat → List FVal → Bool)
    (f : RField) (fs : List RField) (hl : f.label = 3) (h11 : f.ftype = 11)
    (hsub : ∀ sub, csub (refIdx f) sub = true →
      decSub (refIdx f) (encSub (refIdx f) sub) = some sub) :
    ∀ (subs acc : List (List FVal)) (st : List FVal),
      subs.all (csub (refIdx f)) = true →
      applyRecsLevel decSub (f :: fs)
        (subs.map (fun sub => (f.number, WireVal.chunk (encSub (refIdx f) sub))))
        (FVal.fmsgList acc :: st) = some (FVal.fmsgList (acc ++ subs) :: st) := by
  intro subs
  induction subs with
  | nil => intro acc st _; simp [applyRecsLevel]
  | cons sub subs ih =>
    intro acc st hall
    simp only [List.all_cons, Bool.and_eq_true] at hall
    obtain ⟨hsub1, hrest⟩ := hall
    have hv : isVarintTy f.ftype = false := by rw [h11]; rfl
    have hb : isBytesTy f.ftype = false := by rw [h11]; rfl
    simp only [List.map_cons, applyRecsLevel, applyOneLevel, if_pos rfl, updOne, hl, if_true,
      decodeElem, hv, hb, Bool.false_eq_true, if_false, h11, if_pos rfl,
      hsub sub hsub1]
    have := ih (acc ++ [sub]) st hrest
    simpa [List.append_assoc] using this

theorem applyOwn (decSub : Nat → List Nat → Option (List FVal))
    (encSub : Nat → List FVal → List Nat) (csub : Nat → List FVal → Bool)
    (f : RField) (fs : List RField) (st : List FVal)
    (hsub : ∀ sub, csub (refIdx f) sub = true →
      decSub (refIdx f) (encSub (refIdx f) sub) = some sub)
    (v : FVal) (hconf : confField csub f v = true) :
    applyRecsLevel decSub (f :: fs) (fieldRecs encSub f v) (defaultFV f :: st) =
      some (v :: st) := by
  cases v with
  | fabsent =>
    simp only [confField, Bool.and_eq_true, bne_iff_ne, ne_eq, Bool.or_eq_true,
      beq_iff_eq] at hconf
    obtain ⟨hl, hcase⟩ := hconf
    rw [defaultFV_absent hl hcase]
    simp [fieldRecs, if_neg hl, applyRecsLevel]
  | fint n =>
    simp only [confField, Bool.and_eq_true, bne_iff_ne, ne_eq, beq_iff_eq] at hconf
    obtain ⟨⟨hl, hvar⟩, _⟩ := hconf
    by_cases hz : ((n == 0) && ! hasNullable f) = true
    · simp only [Bool.and_eq_true, beq_iff_eq, Bool.not_eq_true'] at hz
      obtain ⟨hn0, hnn⟩ := hz
      subst hn0
      rw [defaultFV_int0 hl hvar hnn]
      simp [fieldRecs, if_neg hl, hnn, applyRecsLevel]
    · simp only [fieldRecs, if_neg hl, hz, if_false]
      simp only [applyRecsLevel, applyOneLevel, if_pos rfl, updOne, if_neg hl,
        decodeElem, hvar, if_true]
  | fbytes bs =>
    simp only [confField, Bool.and_eq_true, bne_iff_ne, ne_eq] at hconf
    obtain ⟨hl, hb⟩ := hconf
    by_cases hz : (bs.isEmpty && ! hasNullable f) = true
    · simp only [Bool.and_eq_true, List.isEmpty_iff, Bool.not_eq_true'] at hz
      obtain ⟨hbs, hnn⟩ := hz
      subst hbs
      rw [defaultFV_bytesNil hl hb hnn]
      simp [fieldRecs, if_neg hl, hnn, applyRecsLevel]
    · simp only [fieldRecs, if_neg hl, hz, if_false]
      simp only [applyRecsLevel, applyOneLevel, if_pos rfl, updOne, if_neg hl,
        decodeElem, isBytesTy_not_varint hb, hb, Bool.false_eq_true, if_false, if_true]
  | fmsg sub =>
    simp only [confField, Bool.and_eq_true, bne_iff_ne, ne_eq, beq_iff_eq] at hconf
    obtain ⟨⟨hl, h11⟩, hcs⟩ := hconf
    have hv : isVarintTy f.ftype = false := by rw [h11]; rfl
    have hb : isBytesTy f.ftype = false := by rw [h11]; rfl
    simp only [fieldRecs, if_neg hl]
    simp only [applyRecsLevel, applyOneLevel, if_pos rfl, updOne, if_neg hl,
      decodeElem, hv, hb, Bool.false_eq_true, if_false, h11, if_pos rfl, hsub sub hcs]
    simp [isVarintTy, isBytesTy]
  | fintList ns =>
    simp only [confField, Bool.and_eq_true, beq_iff_eq] at hconf
    obtain ⟨hl, hvar⟩ := hconf
    rw [defaultFV_intList hl hvar]
    simp only [fieldRecs, hl, if_pos rfl]
    simpa using applyRep_int decSub f fs hl hvar ns [] st
  | fbytesList bss =>
    simp only [confField, Bool.and_eq_true, beq_iff_eq] at hconf
    obtain ⟨hl, hb⟩ := hconf
    rw [defaultFV_bytesList hl hb]
    simp only [fieldRecs, hl, if_pos rfl]
    simpa using applyRep_bytes decSub f fs hl hb bss [] st
  | fmsgList subs =>
    simp only [confField, Bool.and_eq_true, beq_iff_eq] at hconf
    obtain ⟨⟨hl, h11⟩, hall⟩ := hconf
    rw [defaultFV_msgList hl h11]
    simp only [fieldRecs, hl, if_pos rfl]
    simpa using applyRep_msg decSub encSub csub f fs hl h11 hsub subs [] st hall

theorem applyLevel (decSub : Nat → List Nat → Option (List FVal))
    (encSub : Nat → List FVal → List Nat) (csub : Nat → List FVal → Bool)
    (hsub : ∀ j sub, csub j sub = true → decSub j (encSub j sub) = some sub) :
    ∀ (fs : List RField) (vs : List FVal), wfFieldsB fs = true →
      confLevel csub fs vs = true →
      applyRecsLevel decSub fs (levelRecs encSub fs vs) (defaultsLevel fs) = some vs := by
  intro fs
  induction fs with
  | nil =>
    intro vs _ hconf
    cases vs with
    | nil => rfl
    | cons v vs => simp [confLevel] at hconf
  | cons f fs ih =>
    intro vs hwf hconf
    cases vs with
    | nil => simp [confLevel] at hconf
    | cons v vs =>
      simp only [confLevel, Bool.and_eq_true] at hconf
      obtain ⟨hcf, hcl⟩ := hconf
      simp only [wfFieldsB, Bool.and_eq_true] at hwf
      obtain ⟨⟨hwff, hfresh⟩, hwfs⟩ := hwf
      have hdl : defaultsLevel (f :: fs) = defaultFV f :: defaultsLevel fs := rfl
      simp only [levelRecs, hdl]
      rw [applyRecsLevel_append]
      rw [applyOwn decSub encSub csub f fs (defaultsLevel fs)
        (fun sub h => hsub (refIdx f) sub h) v hcf]
      show applyRecsLevel decSub (f :: fs) (levelRecs encSub fs vs) (v :: defaultsLevel fs) =
        some (v :: vs)
      rw [applyRecsLevel_skipAll decSub f fs _ v (defaultsLevel fs)
        (levelRecs_fresh encSub fs vs f.number hfresh)]
      rw [ih vs hwfs hcl]
      rfl

/-- Round trip of the emitted codecs: any message value conforming to its
resolved descriptor within the given nesting depth decodes from its own
encoding to exactly the original values. -/
theorem codec_roundtrip :
    ∀ (fuel : Nat) (ar : List RMessage) (fs : List RField) (vs : List FVal),
      conformsB fuel ar fs vs = true →
      decodeMsgF fuel ar fs (encodeFieldsF fuel ar fs vs) = some vs := by
  intro fuel
  induction fuel with
  | zero => intro ar fs vs h; simp [conformsB] at h
  | succ fuel ih =>
    intro ar fs vs h
    simp only [conformsB, Bool.and_eq_true] at h
    obtain ⟨hwf, hconf⟩ := h
    simp only [encodeFieldsF, decodeMsgF]
    rw [parseRecords_encRecs _ (levelRecs_wf _ fs vs hwf)]
    exact applyLevel _ _ _ (fun j sub hs => ih ar (fieldsOfIdx ar j) sub hs) fs vs hwf hconf


/-! Lemmas about the resolver stage. -/

theorem checkImports_none_iff (ds : List FileDescriptor) :
    checkImports ds = none ↔ importsOkB ds = true := by
  unfold checkImports importsOkB
  cases firstBadImport ds ds with
  | none => simp
  | some bad => obtain ⟨a, b⟩ := bad; simp

theorem firstBadDep_spec (ds : List FileDescriptor) (fl : String) :
    ∀ (deps : List String) (a b : String), firstBadDep ds fl deps = some (a, b) →
      a = fl ∧ countFiles ds b ≠ 1 := by
  intro deps
  induction deps with
  | nil => intro a b h; simp [firstBadDep] at h
  | cons d rest ih =>
    intro a b h
    unfold firstBadDep at h
    by_cases hc : countFiles ds d = 1
    · rw [if_pos hc] at h; exact ih a b h
    · rw [if_neg hc] at h
      simp only [Option.some.injEq, Prod.mk.injEq] at h
      obtain ⟨ha, hb⟩ := h
      subst ha; subst hb
      exact ⟨rfl, hc⟩

theorem firstBadImport_spec (ds : List FileDescriptor) :
    ∀ (files : List FileDescriptor) (a b : String), firstBadImport ds files = some (a, b) →
      countFiles ds b ≠ 1 := by
  intro files
  induction files with
  | nil => intro a b h; simp [firstBadImport] at h
  | cons f fs ih =>
    intro a b h
    unfold firstBadImport at h
    cases hbd : firstBadDep ds f.name f.dependency with
    | some bad =>
      rw [hbd] at h
      obtain ⟨x, y⟩ := bad
      have hspec := (firstBadDep_spec ds f.name f.dependency x y hbd).2
      simp only [Option.some.injEq, Prod.mk.injEq] at h
      obtain ⟨hx, hy⟩ := h
      subst hx; subst hy
      exact hspec
    | none =>
      rw [hbd] at h
      exact ih a b h

theorem resolveRef_ok_iff (ds : List FileDescriptor) (pkg : String) (f : FieldDescriptor) :
    (∃ r, resolveRef ds pkg f = Except.ok r) ↔ fieldResolvableB ds pkg f = true := by
  unfold resolveRef fieldResolvableB
  by_cases h11 : f.ftype = 11
  · simp only [h11, if_true]
    cases resolveName ds pkg f.typeName with
    | none => simp
    | some r => cases r <;> simp
  · by_cases h14 : f.ftype = 14
    · simp only [h11, h14, if_true, if_false]
      cases resolveName ds pkg f.typeName with
      | none => simp
      | some r => cases r <;> simp
    · simp [h11, h14]

theorem resolveRef_error_shape (ds : List FileDescriptor) (pkg : String) (f : FieldDescriptor)
    (e : CompileError) (h : resolveRef ds pkg f = Except.error e) :
    e = CompileError.unresolvedType f.name f.typeName := by
  unfold resolveRef at h
  by_cases h11 : f.ftype = 11
  · rw [if_pos h11] at h
    cases hr : resolveName ds pkg f.typeName with
    | none => rw [hr] at h; simpa using h.symm
    | some r =>
      rw [hr] at h
      cases r with
      | inl i => simp at h
      | inr j => simpa using h.symm
  · rw [if_neg h11] at h
    by_cases h14 : f.ftype = 14
    · rw [if_pos h14] at h
      cases hr : resolveName ds pkg f.typeName with
      | none => rw [hr] at h; simpa using h.symm
      | some r =>
        rw [hr] at h
        cases r with
        | inl i => simpa using h.symm
        | inr j => simp at h
    · rw [if_neg h14] at h
      simp at h

theorem resolveFields_ok_iff (ds : List FileDescriptor) (pkg : String) :
    ∀ fs : List FieldDescriptor,
      (∃ rs, resolveFields ds pkg fs = Except.ok rs) ↔
        fs.all (fieldResolvableB ds pkg) = true := by
  intro fs
  induction fs with
  | nil => simp [resolveFields]
  | cons f fs ih =>
    simp only [List.all_cons, Bool.and_eq_true]
    constructor
    · rintro ⟨rs, h⟩
      unfold resolveFields at h
      cases hr : resolveRef ds pkg f with
      | error e => rw [hr] at h; simp at h
      | ok r =>
        rw [hr] at h
        cases hrest : resolveFields ds pkg fs with
        | error e => rw [hrest] at h; simp at h
        | ok rest =>
          exact ⟨(resolveRef_ok_iff ds pkg f).mp ⟨r, hr⟩, ih.mp ⟨rest, hrest⟩⟩
    · rintro ⟨h1, h2⟩
      obtain ⟨r, hr⟩ := (resolveRef_ok_iff ds pkg f).mpr h1
      obtain ⟨rest, hrest⟩ := ih.mpr h2
      exact ⟨⟨f, r⟩ :: rest, by simp [resolveFields, hr, hrest]⟩

theorem resolveFields_error_shape (ds : List FileDescriptor) (pkg : String) :
    ∀ (fs : List FieldDescriptor) (e : CompileError),
      resolveFields ds pkg fs = Except.error e →
      ∃ fn tn, e = CompileError.unresolvedType fn tn := by
  intro fs
  induction fs with
  | nil => intro e h; simp [resolveFields] at h
  | cons f fs ih =>
    intro e h
    unfold resolveFields at h
    cases hr : resolveRef ds pkg f with
    | error e2 =>
      rw [hr] at h
      simp only [Except.error.injEq] at h
      subst h
      exact ⟨f.name, f.typeName, resolveRef_error_shape ds pkg f e2 hr⟩
    | ok r =>
      rw [hr] at h
      cases hrest : resolveFields ds pkg fs with
      | error e2 =>
        rw [hrest] at h
        simp only [Except.error.injEq] at h
        subst h
        exact ih e2 hrest
      | ok rest => rw [hrest] at h; simp at h

theorem resolveMsgs_ok_iff (ds : List FileDescriptor) :
    ∀ pms : List (String × MessageDescriptor),
      (∃ ms, resolveMsgs ds pms = Except.ok ms) ↔
        pms.all (fun pm => pm.2.fields.all (fieldResolvableB ds pm.1)) = true := by
  intro pms
  induction pms with
  | nil => simp [resolveMsgs]
  | cons pm pms ih =>
    obtain ⟨pkg, m⟩ := pm
    simp only [List.all_cons, Bool.and_eq_true]
    constructor
    · rintro ⟨ms, h⟩
      unfold resolveMsgs at h
      cases hr : resolveFields ds pkg m.fields with
      | error e => rw [hr] at h; simp at h
      | ok rf =>
        rw [hr] at h
        cases hrest : resolveMsgs ds pms with
        | error e => rw [hrest] at h; simp at h
        | ok rest =>
          exact ⟨(resolveFields_ok_iff ds pkg m.fields).mp ⟨rf, hr⟩, ih.mp ⟨rest, hrest⟩⟩
    · rintro ⟨h1, h2⟩
      obtain ⟨rf, hr⟩ := (resolveFields_ok_iff ds pkg m.fields).mpr h1
      obtain ⟨rest, hrest⟩ := ih.mpr h2
      exact ⟨⟨m, rf⟩ :: rest, by simp [resolveMsgs, hr, hrest]⟩

theorem resolveMsgs_error_shape (ds : List FileDescriptor) :
    ∀ (pms : List (String × MessageDescriptor)) (e : CompileError),
      resolveMsgs ds pms = Except.error e →
      ∃ fn tn, e = CompileError.unresolvedType fn tn := by
  intro pms
  induction pms with
  | nil => intro e h; simp [resolveMsgs] at h
  | cons pm pms ih =>
    intro e h
    obtain ⟨pkg, m⟩ := pm
    unfold resolveMsgs at h
    cases hr : resolveFields ds pkg m.fields with
    | error e2 =>
      rw [hr] at h
      simp only [Except.error.injEq] at h
      subst h
      exact resolveFields_error_shape ds pkg m.fields e2 hr
    | ok rf =>
      rw [hr] at h
      cases hrest : resolveMsgs ds pms with
      | error e2 =>
        rw [hrest] at h
        simp only [Except.error.injEq] at h
        subst h
        exact ih e2 hrest
      | ok rest => rw [hrest] at h; simp at h

theorem resolveSet_ok_iff (ds : List FileDescriptor)
    (himp : importsOkB ds = true) (hacy : acyclicB ds = true) :
    (∃ out, resolveSet ds = Except.ok out) ↔ allResolvableB ds = true := by
  unfold resolveSet
  rw [(checkImports_none_iff ds).mpr himp]
  unfold checkCycle
  rw [if_pos hacy]
  unfold allResolvableB
  rw [← resolveMsgs_ok_iff ds (pkgMsgs ds)]
  constructor
  · rintro ⟨out, h⟩
    cases hr : resolveMsgs ds (pkgMsgs ds) with
    | error e => rw [hr] at h; simp at h
    | ok ms => exact ⟨ms, rfl⟩
  · rintro ⟨ms, h⟩
    exact ⟨(ms, allEnums ds), by simp [h]⟩

theorem resolveSet_error_shape (ds : List FileDescriptor)
    (himp : importsOkB ds = true) (hacy : acyclicB ds = true)
    (e : CompileError) (h : resolveSet ds = Except.error e) :
    ∃ fn tn, e = CompileError.unresolvedType fn tn := by
  unfold resolveSet at h
  rw [(checkImports_none_iff ds).mpr himp] at h
  unfold checkCycle at h
  rw [if_pos hacy] at h
  cases hr : resolveMsgs ds (pkgMsgs ds) with
  | error e2 =>
    rw [hr] at h
    simp only [Except.error.injEq] at h
    subst h
    exact resolveMsgs_error_shape ds (pkgMsgs ds) e2 hr
  | ok ms => rw [hr] at h; simp at h

theorem resolveSet_ok_imports (ds : List FileDescriptor)
    (out : List RMessage0 × List EnumDescriptor)
    (h : resolveSet ds = Except.ok out) : importsOkB ds = true := by
  unfold resolveSet at h
  cases hci : checkImports ds with
  | some e => rw [hci] at h; simp at h
  | none => exact (checkImports_none_iff ds).mp hci

theorem importsBad_error (ds : List FileDescriptor) (h : importsOkB ds = false) :
    ∃ fl d, resolveSet ds = Except.error (CompileError.unresolvedImport fl d) ∧
      countFiles ds d ≠ 1 := by
  unfold importsOkB at h
  cases hfb : firstBadImport ds ds with
  | none => rw [hfb] at h; simp at h
  | some bad =>
    obtain ⟨fl, d⟩ := bad
    refine ⟨fl, d, ?_, firstBadImport_spec ds ds fl d hfb⟩
    unfold resolveSet checkImports
    rw [hfb]

/-! Lemmas about the option interpreter. -/

/-- A record either carries an unknown extension number or matches the
expected shape of its recognized extension. -/
def optShapeOkB : Nat × WireVal → Bool
  | (n, w) =>
    match knownExt n with
    | none => true
    | some sh => shapeMatches w sh

theorem applyExt_unknowns (o : ROptions) (n : Nat) (w : WireVal) :
    (applyExt o n w).unknowns = o.unknowns := by
  unfold applyExt
  split_ifs <;> cases w <;> rfl

theorem interpretGo_ok_unknowns (owner : String) :
    ∀ (rs : List (Nat × WireVal)) (o o2 : ROptions),
      interpretGo owner rs o = Except.ok o2 →
      o2.unknowns = o.unknowns ++ rs.filter (fun r => (knownExt r.1).isNone) := by
  intro rs
  induction rs with
  | nil =>
    intro o o2 h
    simp only [interpretGo, Except.ok.injEq] at h
    subst h
    simp
  | cons r rs ih =>
    intro o o2 h
    obtain ⟨n, w⟩ := r
    unfold interpretGo at h
    split at h
    · rename_i hk
      have hu := ih _ _ h
      rw [hu]
      simp [List.filter_cons, hk, List.append_assoc]
    · rename_i sh hk
      split at h
      · rename_i hm
        have hu := ih _ _ h
        rw [hu, applyExt_unknowns]
        simp [List.filter_cons, hk]
      · exact absurd h (by simp)

theorem interpretGo_ok_of_shapes (owner : String) :
    ∀ (rs : List (Nat × WireVal)) (o : ROptions),
      (∀ r ∈ rs, optShapeOkB r = true) →
      ∃ o2, interpretGo owner rs o = Except.ok o2 := by
  intro rs
  induction rs with
  | nil => intro o _; exact ⟨o, rfl⟩
  | cons r rs ih =>
    intro o hall
    obtain ⟨n, w⟩ := r
    have hr : optShapeOkB (n, w) = true := hall _ (List.mem_cons_self _ _)
    have hrest : ∀ x ∈ rs, optShapeOkB x = true := fun x hx => hall x (List.mem_cons_of_mem _ hx)
    unfold interpretGo
    cases hk : knownExt n with
    | none => exact ih _ hrest
    | some sh =>
      have hm : shapeMatches w sh = true := by
        simp only [optShapeOkB, hk] at hr
        exact hr
      show ∃ o2,
        (if shapeMatches w sh = true then interpretGo owner rs (applyExt o n w)
         else Except.error (CompileError.optionDecode owner n)) = Except.ok o2
      rw [if_pos hm]
      exact ih _ hrest

theorem interpretGo_error_shape (owner : String) :
    ∀ (rs : List (Nat × WireVal)) (o : ROptions) (e : CompileError),
      interpretGo owner rs o = Except.error e →
      ∃ n w sh, (n, w) ∈ rs ∧ knownExt n = some sh ∧ shapeMatches w sh = false ∧
        e = CompileError.optionDecode owner n := by
  intro rs
  induction rs with
  | nil => intro o e h; simp [interpretGo] at h
  | cons r rs ih =>
    intro o e h
    obtain ⟨n, w⟩ := r
    unfold interpretGo at h
    split at h
    · obtain ⟨n2, w2, sh2, hmem, hrest⟩ := ih _ _ h
      exact ⟨n2, w2, sh2, List.mem_cons_of_mem _ hmem, hrest⟩
    · rename_i sh hk
      split at h
      · obtain ⟨n2, w2, sh2, hmem, hrest⟩ := ih _ _ h
        exact ⟨n2, w2, sh2, List.mem_cons_of_mem _ hmem, hrest⟩
      · rename_i hm
        simp only [Except.error.injEq] at h
        subst h
        exact ⟨n, w, sh, List.mem_cons_self _ _, hk, Bool.eq_false_iff.mpr hm, rfl⟩


/-! Codegen ignores options that do not steer it: congruence lemmas. -/

theorem refIdx_congr {f g : RField} (h : g.ref = f.ref) : refIdx g = refIdx f := by
  unfold refIdx
  rw [h]

theorem fieldRecs_congr (encSub : Nat → List FVal → List Nat) (f g : RField)
    (hnum : g.number = f.number) (hlab : g.label = f.label)
    (hnn : hasNullable g = hasNullable f) (href : g.ref = f.ref) (v : FVal) :
    fieldRecs encSub g v = fieldRecs encSub f v := by
  unfold fieldRecs
  rw [hnum, hlab, hnn, refIdx_congr href]

theorem levelRecs_congr (encSub : Nat → List FVal → List Nat) (g : RField → RField)
    (hg : ∀ f : RField, (g f).number = f.number ∧ (g f).label = f.label ∧
      hasNullable (g f) = hasNullable f ∧ (g f).ref = f.ref) :
    ∀ (fs : List RField) (vs : List FVal),
      levelRecs encSub (fs.map g) vs = levelRecs encSub fs vs := by
  intro fs
  induction fs with
  | nil => intro vs; rfl
  | cons f fs ih =>
    intro vs
    cases vs with
    | nil => rfl
    | cons v vs =>
      simp only [List.map_cons, levelRecs]
      rw [fieldRecs_congr encSub f (g f) (hg f).1 (hg f).2.1 (hg f).2.2.1 (hg f).2.2.2 v, ih vs]

theorem encodeFieldsF_congr (g : RField → RField)
    (hg : ∀ f : RField, (g f).number = f.number ∧ (g f).label = f.label ∧
      hasNullable (g f) = hasNullable f ∧ (g f).ref = f.ref) :
    ∀ (fuel : Nat) (ar : List RMessage) (fs : List RField) (vs : List FVal),
      encodeFieldsF fuel ar (fs.map g) vs = encodeFieldsF fuel ar fs vs := by
  intro fuel ar fs vs
  cases fuel with
  | zero => rfl
  | succ fuel =>
    simp only [encodeFieldsF]
    rw [levelRecs_congr _ g hg fs vs]

theorem slotFor_congr (g : RField → RField)
    (hg : ∀ f : RField, (g f).number = f.number ∧ (g f).label = f.label ∧
      (g f).ftype = f.ftype ∧ hasNullable (g f) = hasNullable f) (f : RField) :
    slotFor (g f) = slotFor f := by
  unfold slotFor
  rw [(hg f).1, (hg f).2.1, (hg f).2.2.1, (hg f).2.2.2]

theorem memberFoot_congr (g : RField → RField)
    (hft : ∀ f : RField, (g f).ftype = f.ftype) (f : RField) :
    memberFoot (g f) = memberFoot f := by
  unfold memberFoot
  rw [hft f]

theorem oneofPayload_congr (g : RField → RField)
    (hft : ∀ f : RField, (g f).ftype = f.ftype)
    (hoo : ∀ f : RField, (g f).oneofIdx = f.oneofIdx) (i : Nat) :
    ∀ fs : List RField, oneofPayload i (fs.map g) = oneofPayload i fs := by
  intro fs
  induction fs with
  | nil => rfl
  | cons f fs ih =>
    simp only [List.map_cons, oneofPayload]
    rw [hoo f, memberFoot_congr g hft f, ih]

theorem planSlots_congr (g : RField → RField)
    (hg : ∀ f : RField, (g f).number = f.number ∧ (g f).label = f.label ∧
      (g f).ftype = f.ftype ∧ hasNullable (g f) = hasNullable f ∧
      (g f).oneofIdx = f.oneofIdx) (allF : List RField) :
    ∀ (fs : List RField) (seen : List Nat),
      planSlots (allF.map g) (fs.map g) seen = planSlots allF fs seen := by
  intro fs
  induction fs with
  | nil => intro seen; rfl
  | cons f fs ih =>
    intro seen
    simp only [List.map_cons, planSlots]
    rw [(hg f).2.2.2.2]
    cases f.oneofIdx with
    | none =>
      rw [slotFor_congr g (fun x => ⟨(hg x).1, (hg x).2.1, (hg x).2.2.1, (hg x).2.2.2.1⟩) f,
        ih seen]
    | some i =>
      by_cases hs : seen.contains i
      · simp only [hs, if_true]
        exact ih seen
      · simp only [hs, Bool.false_eq_true, if_false]
        rw [oneofPayload_congr g (fun x => (hg x).2.2.1) (fun x => (hg x).2.2.2.2) i allF,
          ih (seen ++ [i])]

theorem planFields_congr (g : RField → RField)
    (hg : ∀ f : RField, (g f).number = f.number ∧ (g f).label = f.label ∧
      (g f).ftype = f.ftype ∧ hasNullable (g f) = hasNullable f ∧
      (g f).oneofIdx = f.oneofIdx) (fs : List RField) :
    planFields (fs.map g) = planFields fs := by
  unfold planFields
  rw [planSlots_congr g hg fs fs []]

/-- Set the custom-type option of a field. -/
def setCustom (f : RField) (ct : String) : RField :=
  { f with opts := { f.opts with customtype := some ct } }

/-- Replace the preserved unknown option records of a field. -/
def setUnknowns (f : RField) (u : List (Nat × WireVal)) : RField :=
  { f with opts := { f.opts with unknowns := u } }

theorem setCustom_projections (ct : String) (f : RField) :
    (setCustom f ct).number = f.number ∧ (setCustom f ct).label = f.label ∧
      (setCustom f ct).ftype = f.ftype ∧ hasNullable (setCustom f ct) = hasNullable f ∧
      (setCustom f ct).oneofIdx = f.oneofIdx ∧ (setCustom f ct).ref = f.ref := by
  refine ⟨rfl, rfl, rfl, ?_, rfl, rfl⟩
  unfold hasNullable setCustom
  rfl

theorem setUnknowns_projections (u : List (Nat × WireVal)) (f : RField) :
    (setUnknowns f u).number = f.number ∧ (setUnknowns f u).label = f.label ∧
      (setUnknowns f u).ftype = f.ftype ∧ hasNullable (setUnknowns f u) = hasNullable f ∧
      (setUnknowns f u).oneofIdx = f.oneofIdx ∧ (setUnknowns f u).ref = f.ref := by
  refine ⟨rfl, rfl, rfl, ?_, rfl, rfl⟩
  unfold hasNullable setUnknowns
  rfl

/-! Emitted enums.

Modelled from the spec: enums are emitted as the closed set of named values
plus a fallback constructor for unknown numeric values, which therefore
round-trip instead of being rejected. -/

/-- An emitted enum value: a named variant or the unknown-numeric fallback. -/
inductive EnumValue where
  | named (nm : String) (n : Nat)
  | unknown (n : Nat)
deriving DecidableEq

/-- Name of the first enum variant carrying the given number. -/
def findValName : List (String × Nat) → Nat → Option String
  | [], _ => none
  | v :: vs, n => if v.2 = n then some v.1 else findValName vs n

/-- Emitted conversion from a wire integer to the enum type. -/
def enumOfInt (ed : EnumDescriptor) (n : Nat) : EnumValue :=
  match findValName ed.values n with
  | some nm => EnumValue.named nm n
  | none => EnumValue.unknown n

/-- Emitted conversion from the enum type back to the wire integer. -/
def enumToInt : EnumValue → Nat
  | EnumValue.named _ n => n
  | EnumValue.unknown n => n

theorem findValName_none {vals : List (String × Nat)} {n : Nat}
    (h : ∀ v ∈ vals, v.2 ≠ n) : findValName vals n = none := by
  induction vals with
  | nil => rfl
  | cons v vs ih =>
    unfold findValName
    rw [if_neg (h v (List.mem_cons_self _ _))]
    exact ih (fun x hx => h x (List.mem_cons_of_mem _ hx))

/-! The self-recursive example for layout sizing. -/

/-- A message field referring back to its own message. -/
def selfRecField : RField :=
  ⟨"next", 1, 1, 11, ".rec.Node", none, some (Sum.inl 0), emptyROptions⟩

/-- A self-recursive message: `Node` with a singular field of type `Node`. -/
def selfRecMsg : RMessage := ⟨".rec.Node", [selfRecField], [], emptyROptions⟩

/-- Arena holding only the self-recursive message. -/
def selfRecArena : List RMessage := [selfRecMsg]

/-! The build harness, embedded from `build.rs`: `main` invokes
`compile_fd_bytes` on the four descriptor byte arrays in order, the `?`
operator propagating the first error. -/

/-- The four descriptor byte arrays in the order `main` compiles them. -/
def buildInputs : List (List Nat) := [test1Bytes, coinBytes, bankBytes, txBytes]

/-- The body of `main` from `build.rs`, parameterized by the compiler it
invokes: four sequential invocations chained with the error-propagating
`?` operator. -/
def mainWith {ε : Type} (compile : List Nat → Except ε PUnit) : Except ε PUnit := do
  let _ ← compile test1Bytes
  let _ ← compile coinBytes
  let _ ← compile bankBytes
  let _ ← compile txBytes
  return PUnit.unit

/-- The modelled `main`: the embedded harness applied to the modelled
compiler. -/
def main : Except CompileError PUnit :=
  mainWith (fun bs => (compile_fd_bytes bs).map (fun _ => PUnit.unit))

/-- Sequential compilation of a list of inputs, stopping at the first
error. -/
def compileSeq {ε : Type} (f : List Nat → Except ε PUnit) : List (List Nat) → Except ε PUnit
  | [] => Except.ok PUnit.unit
  | b :: rest =>
    match f b with
    | Except.error e => Except.error e
    | Except.ok _ => compileSeq f rest

/-- The inputs the harness actually passes to the compiler: every input up
to and including the first failing one. -/
def attempted {ε : Type} (f : List Nat → Except ε PUnit) : List (List Nat) → List (List Nat)
  | [] => []
  | b :: rest =>
    match f b with
    | Except.error _ => [b]
    | Except.ok _ => b :: attempted f rest

theorem mainWith_eq_compileSeq {ε : Type} (f : List Nat → Except ε PUnit) :
    mainWith f = compileSeq f buildInputs := by
  unfold mainWith compileSeq buildInputs
  cases h1 : f test1Bytes with
  | error e => simp [Bind.bind, Except.bind, h1]
  | ok u1 =>
    cases h2 : f coinBytes with
    | error e => simp [Bind.bind, Except.bind, h1, h2, compileSeq]
    | ok u2 =>
      cases h3 : f bankBytes with
      | error e => simp [Bind.bind, Except.bind, h1, h2, h3, compileSeq]
      | ok u3 =>
        cases h4 : f txBytes with
        | error e => simp [Bind.bind, Except.bind, h1, h2, h3, h4, compileSeq]
        | ok u4 => simp [Bind.bind, Except.bind, h1, h2, h3, h4, compileSeq, Pure.pure, Except.pure]

theorem compileSeq_ok_iff {ε : Type} (f : List Nat → Except ε PUnit) :
    ∀ bs : List (List Nat),
      compileSeq f bs = Except.ok PUnit.unit ↔ ∀ b ∈ bs, (f b).isOk = true := by
  intro bs
  induction bs with
  | nil => simp [compileSeq]
  | cons b rest ih =>
    unfold compileSeq
    cases h : f b with
    | error e =>
      simp only [List.mem_cons]
      constructor
      · intro hc; exact absurd hc (by simp)
      · intro hall
        have := hall b (Or.inl rfl)
        rw [h] at this
        simp [Except.isOk, Except.toBool] at this
    | ok u =>
      simp only [List.mem_cons]
      rw [ih]
      constructor
      · intro hall x hx
        rcases hx with hx | hx
        · subst hx; rw [h]; rfl
        · exact hall x hx
      · intro hall x hx
        exact hall x (Or.inr hx)

theorem compileSeq_congr {ε : Type} (f g : List Nat → Except ε PUnit) :
    ∀ bs : List (List Nat), (∀ b ∈ attempted f bs, f b = g b) →
      compileSeq f bs = compileSeq g bs := by
  intro bs
  induction bs with
  | nil => intro _; rfl
  | cons b rest ih =>
    intro hagree
    unfold compileSeq
    cases h : f b with
    | error e =>
      have hb : f b = g b := hagree b (by simp [attempted, h])
      rw [← hb, h]
    | ok u =>
      have hb : f b = g b := hagree b (by simp [attempted, h])
      rw [← hb, h]
      exact ih (fun x hx => hagree x (by simp [attempted, h]; exact Or.inr hx))

theorem attempted_all_ok {ε : Type} (f : List Nat → Except ε PUnit) :
    ∀ bs : List (List Nat), (∀ b ∈ bs, (f b).isOk = true) → attempted f bs = bs := by
  intro bs
  induction bs with
  | nil => intro _; rfl
  | cons b rest ih =>
    intro hall
    unfold attempted
    cases h : f b with
    | error e =>
      have := hall b (List.mem_cons_self _ _)
      rw [h] at this
      simp [Except.isOk, Except.toBool] at this
    | ok u =>
      rw [ih (fun x hx => hall x (List.mem_cons_of_mem _ hx))]


/-! Claim theorems. -/

/-- Stub file descriptor carrying only a path name: used to satisfy import
paths of a set without contributing any definitions. -/
def stubFile (nm : String) : FileDescriptor := ⟨nm, "", [], [], []⟩

/-- The tx.proto descriptor set extended with empty stub files for its
six dependency paths: imports resolve, but no imported definition
exists. -/
def txStubSet : List FileDescriptor :=
  match decodeFile txBytes with
  | some fl => fl :: fl.dependency.map stubFile
  | none => []

/-- The single-file descriptor set of the coin.proto invocation. -/
def coinSet : List FileDescriptor :=
  match decodeFile coinBytes with
  | some fl => [fl]
  | none => []

/-- C1: type-name resolution is satisfied entirely within the descriptor
set of one invocation: with imports and cycles in order, resolution
succeeds exactly when every field type name resolves in this set's symbol
table, and any failure is an UnresolvedTypeError naming a field and its
attempted name.  Concretely, the tx.proto bytes declare
`MsgSend.amount : .cosmos.base.v1beta1.Coin` but the set defines no Coin
(its symbol table lacks the name, while the coin.proto invocation's own
table has it); the tx invocation fails, and with its imports stubbed so
that only within-set type resolution is in question, it fails precisely
with UnresolvedTypeError on field `amount` and name
`.cosmos.base.v1beta1.Coin`. -/
theorem c1_resolution_within_set :
    (∀ ds : List FileDescriptor, importsOkB ds = true → acyclicB ds = true →
      (((∃ out, resolveSet ds = Except.ok out) ↔ allResolvableB ds = true) ∧
        (∀ e, resolveSet ds = Except.error e →
          ∃ fn tn, e = CompileError.unresolvedType fn tn))) ∧
    (decodeFile txBytes).map (fun fl => fl.messages.head?.map
        (fun m => (m.name, m.fields.map (fun fd => (fd.name, fd.typeName))))) =
      some (some (".cosmos.bank.v1beta1.MsgSend",
        [("from_address", ""), ("to_address", ""), ("amount", ".cosmos.base.v1beta1.Coin")])) ∧
    (decodeFile txBytes).map (fun fl => symLookup [fl] ".cosmos.base.v1beta1.Coin") =
      some none ∧
    (decodeFile coinBytes).map (fun fl => symLookup [fl] ".cosmos.base.v1beta1.Coin") =
      some (some (Sum.inl 0)) ∧
    compile_fd_bytes txBytes =
      Except.error
        (CompileError.unresolvedImport "cosmos/bank/v1beta1/tx.proto" "gogoproto/gogo.proto") ∧
    resolveSet txStubSet =
      Except.error (CompileError.unresolvedType "amount" ".cosmos.base.v1beta1.Coin") := by
  refine ⟨?_, rfl, rfl, rfl, rfl, rfl⟩
  intro ds himp hacy
  exact ⟨resolveSet_ok_iff ds himp hacy, fun e he => resolveSet_error_shape ds himp hacy e he⟩

/-- Witness for C1 at the stubbed tx.proto set. -/
theorem c1_witness :
    importsOkB txStubSet = true ∧ acyclicB txStubSet = true ∧
      ((∃ out, resolveSet txStubSet = Except.ok out) ↔ allResolvableB txStubSet = true) :=
  ⟨rfl, rfl, (c1_resolution_within_set.1 txStubSet rfl rfl).1⟩

/-- C2: every import path of every file must resolve to exactly one file
of the same descriptor set, or the invocation fails: a successful
resolution implies the invariant, and a violated invariant produces an
unresolved-import failure naming an import whose file count is not one.
Concretely, the coin.proto single-file set declares the three imports
gogoproto/gogo.proto, cosmos_proto/cosmos.proto and amino/amino.proto,
none of which is present in the supplied bytes, and the invocation fails
on the first of them. -/
theorem c2_import_invariant :
    (∀ (ds : List FileDescriptor) (out : List RMessage0 × List EnumDescriptor),
      resolveSet ds = Except.ok out → importsOkB ds = true) ∧
    (∀ ds : List FileDescriptor, importsOkB ds = false →
      ∃ fl d, resolveSet ds = Except.error (CompileError.unresolvedImport fl d) ∧
        countFiles ds d ≠ 1) ∧
    (decodeFile coinBytes).map FileDescriptor.dependency =
      some ["gogoproto/gogo.proto", "cosmos_proto/cosmos.proto", "amino/amino.proto"] ∧
    (decodeFile coinBytes).map (fun fl => countFiles [fl] "gogoproto/gogo.proto") = some 0 ∧
    compile_fd_bytes coinBytes =
      Except.error
        (CompileError.unresolvedImport "cosmos/base/v1beta1/coin.proto" "gogoproto/gogo.proto") :=
  ⟨fun ds out h => resolveSet_ok_imports ds out h,
   fun ds h => importsBad_error ds h, rfl, rfl, rfl⟩

/-- Witness for C2 at the coin.proto set. -/
theorem c2_witness :
    ∃ fl d, resolveSet coinSet = Except.error (CompileError.unresolvedImport fl d) ∧
      countFiles coinSet d ≠ 1 :=
  c2_import_invariant.2.1 coinSet rfl

/-- C3: the pipeline is deterministic: identical input bytes give
identical emitted output, and a layout plan is a function of the field
list (declaration order plus oneof grouping) alone, so recomputing the
plan of the same message always yields the identical layout. -/
theorem c3_determinism :
    (∀ b1 b2 : List Nat, b1 = b2 → compile_fd_bytes b1 = compile_fd_bytes b2) ∧
    (∀ m1 m2 : RMessage, m1.fields = m2.fields → planMessage m1 = planMessage m2) ∧
    (∀ m : RMessage, planMessage m = planFields m.fields) :=
  ⟨fun _ _ h => h ▸ rfl,
   fun m1 m2 h => by unfold planMessage; rw [h],
   fun _ => rfl⟩

/-- Witness for C3: the same bytes compile identically, and two messages
differing in everything but their field lists plan identically. -/
theorem c3_witness :
    compile_fd_bytes test1Bytes = compile_fd_bytes test1Bytes ∧
      planMessage ⟨".a.M", [selfRecField], [], emptyROptions⟩ =
        planMessage ⟨".b.N", [selfRecField], ["oo"], emptyROptions⟩ :=
  ⟨c3_determinism.1 test1Bytes test1Bytes rfl, c3_determinism.2.1 _ _ rfl⟩

/-- C10: the build harness compiles exactly the four descriptor arrays in
the fixed order test1, coin, bank, tx; it propagates the first error
without attempting the remaining invocations (the result only depends on
the compiler's behavior on the attempted prefix), and returns Ok exactly
when all four invocations succeed. -/
theorem c10_build_short_circuit :
    buildInputs = [test1Bytes, coinBytes, bankBytes, txBytes] ∧
    (∀ (ε : Type) (f : List Nat → Except ε PUnit),
      mainWith f = compileSeq f buildInputs ∧
      (mainWith f = Except.ok PUnit.unit ↔ ∀ b ∈ buildInputs, (f b).isOk = true) ∧
      (∀ g : List Nat → Except ε PUnit,
        (∀ b ∈ attempted f buildInputs, f b = g b) → mainWith f = mainWith g) ∧
      ((∀ b ∈ buildInputs, (f b).isOk = true) → attempted f buildInputs = buildInputs) ∧
      (∀ e, f test1Bytes = Except.error e →
        mainWith f = Except.error e ∧ attempted f buildInputs = [test1Bytes]) ∧
      (∀ e u, f test1Bytes = Except.ok u → f coinBytes = Except.error e →
        mainWith f = Except.error e ∧ attempted f buildInputs = [test1Bytes, coinBytes])) := by
  refine ⟨rfl, fun ε f => ⟨mainWith_eq_compileSeq f, ?_, ?_, ?_, ?_, ?_⟩⟩
  · rw [mainWith_eq_compileSeq f]
    exact compileSeq_ok_iff f buildInputs
  · intro g hag
    rw [mainWith_eq_compileSeq f, mainWith_eq_compileSeq g]
    exact compileSeq_congr f g buildInputs hag
  · exact attempted_all_ok f buildInputs
  · intro e h
    rw [mainWith_eq_compileSeq f]
    constructor
    · show compileSeq f (test1Bytes :: [coinBytes, bankBytes, txBytes]) = Except.error e
      unfold compileSeq
      rw [h]
    · show attempted f (test1Bytes :: [coinBytes, bankBytes, txBytes]) = [test1Bytes]
      unfold attempted
      rw [h]
  · intro e u h1 h2
    rw [mainWith_eq_compileSeq f]
    constructor
    · show compileSeq f (test1Bytes :: coinBytes :: [bankBytes, txBytes]) = Except.error e
      unfold compileSeq
      rw [h1]
      show compileSeq f (coinBytes :: [bankBytes, txBytes]) = Except.error e
      unfold compileSeq
      rw [h2]
    · show attempted f (test1Bytes :: coinBytes :: [bankBytes, txBytes]) =
        [test1Bytes, coinBytes]
      unfold attempted
      rw [h1]
      show test1Bytes :: attempted f (coinBytes :: [bankBytes, txBytes]) =
        [test1Bytes, coinBytes]
      unfold attempted
      rw [h2]

/-- A compiler stand-in that fails exactly on the coin.proto bytes. -/
def witnessCompiler : List Nat → Except Nat PUnit :=
  fun bs => if bs = coinBytes then Except.error 7 else Except.ok PUnit.unit

/-- Witness for C10: a compiler failing on the second input makes the
harness stop after two attempts and report that error. -/
theorem c10_witness :
    mainWith witnessCompiler = Except.error 7 ∧
      attempted witnessCompiler buildInputs = [test1Bytes, coinBytes] :=
  (c10_build_short_circuit.2 Nat witnessCompiler).2.2.2.2.2 7 PUnit.unit (by rfl) (by rfl)


/-! The two-file scenario: file A defines Coin, file B defines MsgSend
importing A. -/

/-- File A of the scenario: defines `Coin {denom: string, amount: string}`. -/
def fileA : FileDescriptor :=
  ⟨"a.proto", "cosmos.base.v1beta1", [],
    [⟨".cosmos.base.v1beta1.Coin",
      [⟨"denom", 1, 1, 9, "", none, []⟩, ⟨"amount", 2, 1, 9, "", none, []⟩], [], []⟩], []⟩

/-- File B of the scenario: defines `MsgSend` with `amount : repeated
.cosmos.base.v1beta1.Coin`, importing file A. -/
def fileB : FileDescriptor :=
  ⟨"b.proto", "cosmos.bank.v1beta1", ["a.proto"],
    [⟨".cosmos.bank.v1beta1.MsgSend",
      [⟨"from_address", 1, 1, 9, "", none, []⟩, ⟨"to_address", 2, 1, 9, "", none, []⟩,
       ⟨"amount", 3, 3, 11, ".cosmos.base.v1beta1.Coin", none, []⟩], [], []⟩], []⟩

/-- The resolved Coin fields of the scenario. -/
def scenCoinFields : List RField :=
  [⟨"denom", 1, 1, 9, "", none, none, emptyROptions⟩,
   ⟨"amount", 2, 1, 9, "", none, none, emptyROptions⟩]

/-- The resolved MsgSend fields of the scenario: `amount` is a repeated
message field referring to Coin at arena index 0. -/
def scenMsgSendFields : List RField :=
  [⟨"from_address", 1, 1, 9, "", none, none, emptyROptions⟩,
   ⟨"to_address", 2, 1, 9, "", none, none, emptyROptions⟩,
   ⟨"amount", 3, 3, 11, ".cosmos.base.v1beta1.Coin", none, some (Sum.inl 0), emptyROptions⟩]

/-- The resolved message arena of the scenario. -/
def scenArena : List RMessage :=
  [⟨".cosmos.base.v1beta1.Coin", scenCoinFields, [], emptyROptions⟩,
   ⟨".cosmos.bank.v1beta1.MsgSend", scenMsgSendFields, [], emptyROptions⟩]

/-- A MsgSend holding one `Coin {denom: "atom", amount: "5"}` (strings as
their ASCII bytes). -/
def scenVal : List FVal :=
  [FVal.fbytes [99, 111, 115, 49], FVal.fbytes [99, 111, 115, 50],
   FVal.fmsgList [[FVal.fbytes [97, 116, 111, 109], FVal.fbytes [53]]]]

/-- C4: the emitted codecs round-trip: every message value conforming to
its resolved descriptor decodes from its own encoding back to exactly the
original field values (default and absent fields mapping back per proto3
rules, with nullable overrides keeping explicit presence).  Concretely,
compiling the two-file set resolves `Coin` from file A into `MsgSend`'s
repeated `amount` field and plans it as a variable-length region. -/
theorem c4_roundtrip :
    (∀ (fuel : Nat) (ar : List RMessage) (fs : List RField) (vs : List FVal),
      conformsB fuel ar fs vs = true →
      decodeMsgF fuel ar fs (encodeFieldsF fuel ar fs vs) = some vs) ∧
    (compileSet [fileA, fileB]).map
        (fun o => o.messages.map (fun m => (m.name, m.fields))) =
      Except.ok [(".cosmos.base.v1beta1.Coin", scenCoinFields),
                 (".cosmos.bank.v1beta1.MsgSend", scenMsgSendFields)] ∧
    (compileSet [fileA, fileB]).map
        (fun o => o.messages.map (fun m => m.plan.slots.map Slot.kind)) =
      Except.ok [[SlotKind.varRegion, SlotKind.varRegion],
                 [SlotKind.varRegion, SlotKind.varRegion, SlotKind.varRegion]] :=
  ⟨codec_roundtrip, rfl, rfl⟩

/-- Witness for C4: the one-coin MsgSend of the scenario round-trips to
the same single-element list. -/
theorem c4_witness :
    conformsB 2 scenArena scenMsgSendFields scenVal = true ∧
      decodeMsgF 2 scenArena scenMsgSendFields
        (encodeFieldsF 2 scenArena scenMsgSendFields scenVal) = some scenVal :=
  ⟨rfl, c4_roundtrip.1 2 scenArena scenMsgSendFields scenVal rfl⟩

theorem slotFor_presence {f : RField} (hl : f.label ≠ 3) :
    (slotFor f).presence = hasNullable f := by
  unfold slotFor
  rw [if_neg hl]
  cases scalarWidth f.ftype <;> rfl

/-- C5: a varint-scalar field carrying the nullable override keeps
explicit-zero and absent distinguishable across a round trip (and its
planned slot carries an explicit presence flag); without the override,
explicit zero encodes to nothing and wire absence reads back as the zero
default, collapsing the two (and no presence flag is planned). -/
theorem c5_presence :
    ∀ f : RField, 1 ≤ f.number → f.label ≠ 3 → isVarintTy f.ftype = true →
      (hasNullable f = true →
        decodeMsgF 1 [] [f] (encodeFieldsF 1 [] [f] [FVal.fint 0]) = some [FVal.fint 0] ∧
        decodeMsgF 1 [] [f] (encodeFieldsF 1 [] [f] [FVal.fabsent]) = some [FVal.fabsent] ∧
        FVal.fint 0 ≠ FVal.fabsent ∧
        (slotFor f).presence = true) ∧
      (hasNullable f = false →
        encodeFieldsF 1 [] [f] [FVal.fint 0] = [] ∧
        decodeMsgF 1 [] [f] [] = some [FVal.fint 0] ∧
        (slotFor f).presence = false) := by
  intro f hnum hl hvar
  have h11 : f.ftype ≠ 11 := isVarintTy_ne11 hvar
  constructor
  · intro hnn
    have hconf0 : conformsB 1 [] [f] [FVal.fint 0] = true := by
      simp [conformsB, wfFieldsB, wfFieldB, numbersFresh, confLevel, confField,
        hvar, hnum, hl, h11]
    have hconfA : conformsB 1 [] [f] [FVal.fabsent] = true := by
      simp [conformsB, wfFieldsB, wfFieldB, numbersFresh, confLevel, confField,
        hvar, hnum, hl, h11, hnn]
    refine ⟨codec_roundtrip 1 [] [f] [FVal.fint 0] hconf0,
      codec_roundtrip 1 [] [f] [FVal.fabsent] hconfA,
      fun h => FVal.noConfusion h, ?_⟩
    rw [slotFor_presence hl, hnn]
  · intro hnn
    refine ⟨?_, ?_, ?_⟩
    · show encRecs (levelRecs (fun j sub => encodeFieldsF 0 [] (fieldsOfIdx [] j) sub)
        [f] [FVal.fint 0]) = []
      simp [levelRecs, fieldRecs, if_neg hl, hnn, encRecs]
    · have hd : decodeMsgF 1 [] [f] [] = some (defaultsLevel [f]) := rfl
      rw [hd]
      show some [defaultFV f] = some [FVal.fint 0]
      rw [defaultFV_int0 hl hvar hnn]
    · rw [slotFor_presence hl, hnn]

/-- A nullable uint64 field used to instantiate C5. -/
def nullableField : RField :=
  ⟨"n", 1, 1, 4, "", none, none, { emptyROptions with nullable := some true }⟩

/-- A plain uint64 field used to instantiate C5. -/
def plainField : RField := ⟨"n", 1, 1, 4, "", none, none, emptyROptions⟩

/-- Witness for C5 at a nullable and a plain uint64 field. -/
theorem c5_witness :
    (decodeMsgF 1 [] [nullableField]
        (encodeFieldsF 1 [] [nullableField] [FVal.fint 0]) = some [FVal.fint 0] ∧
      (slotFor nullableField).presence = true) ∧
      (encodeFieldsF 1 [] [plainField] [FVal.fint 0] = [] ∧
        (slotFor plainField).presence = false) :=
  ⟨⟨((c5_presence nullableField (by decide) (by decide) rfl).1 rfl).1,
    ((c5_presence nullableField (by decide) (by decide) rfl).1 rfl).2.2.2⟩,
   ⟨((c5_presence plainField (by decide) (by decide) rfl).2 rfl).1,
    ((c5_presence plainField (by decide) (by decide) rfl).2 rfl).2.2⟩⟩

/-- The Coin.amount field of coin.proto as resolved and interpreted from
the real descriptor bytes: custom type `cosmossdk.io/math.Int`. -/
def coinAmountR : RField :=
  ⟨"amount", 2, 1, 9, "", none, none,
    { nullable := some false, customtype := some "cosmossdk.io/math.Int",
      moretags := none, jsontag := none, castrepeated := none,
      scalarHint := some "cosmos.Int", unknowns := [(11110005, WireVal.vint 1)] }⟩

/-- C6: a custom-representation option changes only the type the emitted
accessor exposes: setting it leaves the encode routine's wire bytes and
the layout plan unchanged for every message value, while the accessor
exposes the requested representation.  Concretely, Coin.amount from the
coin.proto bytes exposes `cosmossdk.io/math.Int` where the native type is
`string`. -/
theorem c6_customtype_wire_invariant :
    (∀ (ct : String) (fuel : Nat) (ar : List RMessage) (fs : List RField) (vs : List FVal)
      (f : RField),
      encodeFieldsF fuel ar (fs.map (fun x => setCustom x ct)) vs =
        encodeFieldsF fuel ar fs vs ∧
      planFields (fs.map (fun x => setCustom x ct)) = planFields fs ∧
      (accessorOf (setCustom f ct)).exposedType = ct ∧
      (accessorOf (setCustom f ct)).fieldName = f.name) ∧
    (decodeFile coinBytes).map (fun fl => fl.messages.head?.map
        (fun m => (m.fields.get? 1).map (fun fd => interpretField ⟨fd, none⟩))) =
      some (some (some (Except.ok coinAmountR))) ∧
    accessorOf coinAmountR = ⟨"amount", "cosmossdk.io/math.Int"⟩ ∧
    nativeType coinAmountR = "string" := by
  refine ⟨fun ct fuel ar fs vs f => ⟨?_, ?_, rfl, rfl⟩, rfl, rfl, rfl⟩
  · exact encodeFieldsF_congr _
      (fun x => ⟨(setCustom_projections ct x).1, (setCustom_projections ct x).2.1,
        (setCustom_projections ct x).2.2.2.1, (setCustom_projections ct x).2.2.2.2.2⟩)
      fuel ar fs vs
  · exact planFields_congr _
      (fun x => ⟨(setCustom_projections ct x).1, (setCustom_projections ct x).2.1,
        (setCustom_projections ct x).2.2.1, (setCustom_projections ct x).2.2.2.1,
        (setCustom_projections ct x).2.2.2.2.1⟩) fs

/-- ASCII bytes of a string. -/
def bytesOfStr (s : String) : List Nat := s.data.map Char.toNat

/-- The raw option records of MsgSend.amount in the tx.proto bytes: two
recognized gogoproto extensions and two unknown amino extensions. -/
def msgSendAmountOpts : List (Nat × WireVal) :=
  [(65001, WireVal.vint 0),
   (65013, WireVal.chunk (bytesOfStr "github.com/cosmos/cosmos-sdk/types.Coins")),
   (11110003, WireVal.chunk (bytesOfStr "legacy_coins")),
   (11110005, WireVal.vint 1)]

/-- C7: option records with unrecognized extension numbers are preserved
unchanged (in order) and never cause a failure; only a recognized
extension number whose payload has the wrong wire shape fails, with an
OptionDecodeError naming the owning descriptor and the extension number;
and codegen (accessors, layout, encode) does not read the preserved
unknown records. -/
theorem c7_option_extensions :
    (∀ (owner : String) (recs : List (Nat × WireVal)),
      ((∀ r ∈ recs, optShapeOkB r = true) →
        ∃ o, interpretOptions owner recs = Except.ok o ∧
          o.unknowns = recs.filter (fun r => (knownExt r.1).isNone)) ∧
      (∀ e, interpretOptions owner recs = Except.error e →
        ∃ n w sh, (n, w) ∈ recs ∧ knownExt n = some sh ∧ shapeMatches w sh = false ∧
          e = CompileError.optionDecode owner n)) ∧
    (∀ (u : List (Nat × WireVal)) (f : RField) (fuel : Nat) (ar : List RMessage)
      (fs : List RField) (vs : List FVal),
      accessorOf (setUnknowns f u) = accessorOf f ∧
      planFields (fs.map (fun x => setUnknowns x u)) = planFields fs ∧
      encodeFieldsF fuel ar (fs.map (fun x => setUnknowns x u)) vs =
        encodeFieldsF fuel ar fs vs) := by
  constructor
  · intro owner recs
    constructor
    · intro hall
      obtain ⟨o, ho⟩ := interpretGo_ok_of_shapes owner recs emptyROptions hall
      refine ⟨o, ho, ?_⟩
      have := interpretGo_ok_unknowns owner recs emptyROptions o ho
      simpa [emptyROptions] using this
    · exact fun e he => interpretGo_error_shape owner recs emptyROptions e he
  · intro u f fuel ar fs vs
    refine ⟨rfl, ?_, ?_⟩
    · exact planFields_congr _
        (fun x => ⟨(setUnknowns_projections u x).1, (setUnknowns_projections u x).2.1,
          (setUnknowns_projections u x).2.2.1, (setUnknowns_projections u x).2.2.2.1,
          (setUnknowns_projections u x).2.2.2.2.1⟩) fs
    · exact encodeFieldsF_congr _
        (fun x => ⟨(setUnknowns_projections u x).1, (setUnknowns_projections u x).2.1,
          (setUnknowns_projections u x).2.2.2.1, (setUnknowns_projections u x).2.2.2.2.2⟩)
        fuel ar fs vs

/-- Witness for C7 at the real MsgSend.amount option records of the
tx.proto bytes: interpretation succeeds and preserves exactly the two
unknown amino records. -/
theorem c7_witness :
    (decodeFile txBytes).map (fun fl => fl.messages.head?.map
        (fun m => (m.fields.get? 2).map FieldDescriptor.rawOpts)) =
      some (some (some msgSendAmountOpts)) ∧
    ∃ o, interpretOptions "amount" msgSendAmountOpts = Except.ok o ∧
      o.unknowns = msgSendAmountOpts.filter (fun r => (knownExt r.1).isNone) :=
  ⟨rfl, ((c7_option_extensions.1 "amount" msgSendAmountOpts).1 (by decide))⟩

/-- C8: unknown enum numeric values are never rejected: converting any
number through the emitted enum type and back is the identity, a number
with no named variant maps to the unknown-value fallback, and an enum
field holding any numeric value survives a decode of its own encoding
unchanged. -/
theorem c8_open_enum :
    ∀ (ed : EnumDescriptor) (n : Nat),
      enumToInt (enumOfInt ed n) = n ∧
      ((∀ v ∈ ed.values, v.2 ≠ n) → enumOfInt ed n = EnumValue.unknown n) ∧
      (∀ f : RField, 1 ≤ f.number → f.label ≠ 3 → f.ftype = 14 → hasNullable f = false →
        decodeMsgF 1 [] [f] (encodeFieldsF 1 [] [f] [FVal.fint n]) = some [FVal.fint n]) := by
  intro ed n
  refine ⟨?_, ?_, ?_⟩
  · unfold enumOfInt
    cases findValName ed.values n <;> rfl
  · intro h
    unfold enumOfInt
    rw [findValName_none h]
  · intro f hnum hl h14 _
    have hvar : isVarintTy f.ftype = true := by rw [h14]; rfl
    have h11 : f.ftype ≠ 11 := isVarintTy_ne11 hvar
    have hconf : conformsB 1 [] [f] [FVal.fint n] = true := by
      simp [conformsB, wfFieldsB, wfFieldB, numbersFresh, confLevel, confField,
        hvar, hnum, hl, h11]
    exact codec_roundtrip 1 [] [f] [FVal.fint n] hconf

/-- An enum field used to instantiate C8. -/
def enumField : RField := ⟨"status", 1, 1, 14, ".test.E", none, none, emptyROptions⟩

/-- Witness for C8: the numeric value 42, which names no variant of the
enum, survives the round trip and maps to the unknown fallback. -/
theorem c8_witness :
    enumToInt (enumOfInt ⟨".test.E", [("A", 0), ("B", 1)]⟩ 42) = 42 ∧
      enumOfInt ⟨".test.E", [("A", 0), ("B", 1)]⟩ 42 = EnumValue.unknown 42 ∧
      decodeMsgF 1 [] [enumField] (encodeFieldsF 1 [] [enumField] [FVal.fint 42]) =
        some [FVal.fint 42] :=
  ⟨(c8_open_enum ⟨".test.E", [("A", 0), ("B", 1)]⟩ 42).1,
   (c8_open_enum ⟨".test.E", [("A", 0), ("B", 1)]⟩ 42).2.1 (by decide),
   (c8_open_enum ⟨".test.E", [("A", 0), ("B", 1)]⟩ 42).2.2 enumField (by decide) (by decide)
     rfl rfl⟩

/-- C9: layout planning terminates and never inline-embeds a message
field: a non-oneof message-typed field is always planned as an indirect
offset-based slot; the hypothetical inline-embedding size of a
self-recursive message fails with UnsizableLayoutError at every recursion
bound instead of looping; and an empty message yields the valid zero-size
layout plan (the tx.proto set's MsgSendResponse being a concrete empty
message). -/
theorem c9_layout_termination :
    (∀ f : RField, f.ftype = 11 → f.oneofIdx = none →
      (slotFor f).kind = SlotKind.varRegion) ∧
    (∀ fuel : Nat, inlineMsgSize fuel selfRecArena 0 =
      Except.error (CompileError.unsizableLayout ".rec.Node")) ∧
    (∀ m : RMessage, m.fields = [] → planMessage m = ⟨[], 0⟩) ∧
    (decodeFile txBytes).map (fun fl => (fl.messages.get? 1).map
        (fun m => (m.name, m.fields))) =
      some (some (".cosmos.bank.v1beta1.MsgSendResponse", [])) := by
  refine ⟨?_, ?_, ?_, rfl⟩
  · intro f h11 _
    unfold slotFor
    by_cases hl : f.label = 3
    · simp [hl]
    · simp [hl, h11, scalarWidth]
  · intro fuel
    induction fuel with
    | zero => rfl
    | succ fuel ih =>
      show inlineFieldsSz (inlineMsgSize fuel selfRecArena) [selfRecField] = _
      simp [inlineFieldsSz, inlineFieldSz, selfRecField, scalarWidth, ih]
  · intro m h
    unfold planMessage planFields
    rw [h]
    rfl

/-- Witness for C9: the self-recursive field is planned indirectly, the
empty MsgSendResponse plans to the zero-size layout, and inline embedding
of the self-recursive message is unsizable at bound five. -/
theorem c9_witness :
    (slotFor selfRecField).kind = SlotKind.varRegion ∧
      planMessage ⟨".cosmos.bank.v1beta1.MsgSendResponse", [], [], emptyROptions⟩ = ⟨[], 0⟩ ∧
      inlineMsgSize 5 selfRecArena 0 =
        Except.error (CompileError.unsizableLayout ".rec.Node") :=
  ⟨c9_layout_termination.1 selfRecField rfl rfl,
   c9_layout_termination.2.2.1 _ rfl,
   c9_layout_termination.2.1 5⟩

end Zeropb
